import Mathlib

/-!
Shallow embedding of the Bootstrap Theme Toggler engine
(source: `src/unnamed/part_000`; `src/src/index.js` is an encryption-free
variant of the same class).  JS strings are modeled as lists of Unicode
code points (`Str`), the two browser storage backends as association
lists, and time as milliseconds since the epoch (`Nat`).  Every source
method is wrapped in a try/catch that degrades to a fallback value; the
embedding mirrors each such fallback explicitly and notes it at the
definition it belongs to.
-/

set_option maxHeartbeats 1000000

namespace BTT

/-- A JS string, as the list of its Unicode code points. -/
abbrev Str := List Nat

/-- Embed a Lean string literal as a `Str`. -/
def S (s : String) : Str := s.data.map Char.toNat

/-- The code points of a well-formed JS string are Unicode scalar values. -/
def ValidStr (s : Str) : Prop := ∀ c ∈ s, c < 0xD800 ∨ (0xDFFF < c ∧ c < 0x110000)

instance (s : Str) : Decidable (ValidStr s) := by
  unfold ValidStr; infer_instance

theorem S_valid (s : String) : ValidStr (S s) := by
  intro c hc
  simp only [S, List.mem_map] at hc
  obtain ⟨ch, _, rfl⟩ := hc
  have h := ch.valid
  simpa [Char.toNat, UInt32.isValidChar, Nat.isValidChar] using h

/-! ## UTF-8 (TextEncoder / TextDecoder) -/

/-- UTF-8 encoding of a single code point, as `TextEncoder` produces it. -/
def utf8Char (c : Nat) : List Nat :=
  if c < 0x80 then [c]
  else if c < 0x800 then [0xC0 + c / 64, 0x80 + c % 64]
  else if c < 0x10000 then [0xE0 + c / 4096, 0x80 + c / 64 % 64, 0x80 + c % 64]
  else [0xF0 + c / 262144, 0x80 + c / 4096 % 64, 0x80 + c / 64 % 64, 0x80 + c % 64]

/-- `new TextEncoder().encode(s)`: the UTF-8 bytes of `s`. -/
def utf8Encode (s : Str) : List Nat := (s.map utf8Char).flatten

/-- Strict UTF-8 decoding, one byte per step.  `pending` counts the
continuation bytes still expected, `acc` accumulates the partial code
point and `lo` is the smallest value the finished code point may take
(the overlong-encoding bound). -/
def utf8DecAux : Nat → Nat → Nat → List Nat → Option Str
  | 0, _, _, [] => some []
  | _ + 1, _, _, [] => none
  | 0, _, _, b :: t =>
    if b < 0x80 then (utf8DecAux 0 0 0 t).map (fun s => b :: s)
    else if b < 0xC0 then none
    else if b < 0xE0 then utf8DecAux 1 (b - 0xC0) 0x80 t
    else if b < 0xF0 then utf8DecAux 2 (b - 0xE0) 0x800 t
    else if b < 0xF8 then utf8DecAux 3 (b - 0xF0) 0x10000 t
    else none
  | 1, acc, lo, b :: t =>
    if 0x80 ≤ b ∧ b < 0xC0 then
      if lo ≤ acc * 64 + (b - 0x80) ∧
          (acc * 64 + (b - 0x80) < 0xD800 ∨
            (0xDFFF < acc * 64 + (b - 0x80) ∧ acc * 64 + (b - 0x80) < 0x110000)) then
        (utf8DecAux 0 0 0 t).map (fun s => (acc * 64 + (b - 0x80)) :: s)
      else none
    else none
  | p + 2, acc, lo, b :: t =>
    if 0x80 ≤ b ∧ b < 0xC0 then utf8DecAux (p + 1) (acc * 64 + (b - 0x80)) lo t
    else none

/-- `TextDecoder().decode`: never throws in its default mode; on the
well-formed byte strings the engine feeds it, it returns exactly the encoded
string.  Malformed input (where the browser would emit replacement
characters) is modeled as `none`; the storage layer turns that case into a
JSON-parse failure, which in the source ends in the same `null` result. -/
def utf8Decode (l : List Nat) : Option Str := utf8DecAux 0 0 0 l

theorem utf8Char_bytes_lt (c : Nat) (hc : c < 0x110000) : ∀ b ∈ utf8Char c, b < 256 := by
  intro b hb
  unfold utf8Char at hb
  split at hb
  · simp at hb; omega
  · split at hb
    · simp at hb
      rcases hb with h | h <;> omega
    · split at hb
      · simp at hb
        rcases hb with h | h | h <;> omega
      · simp at hb
        rcases hb with h | h | h | h <;> omega

theorem utf8Decode_char (c : Nat) (hv : c < 0xD800 ∨ (0xDFFF < c ∧ c < 0x110000))
    (r : List Nat) :
    utf8Decode (utf8Char c ++ r) = (utf8Decode r).map (fun s => c :: s) := by
  unfold utf8Decode
  rcases Nat.lt_or_ge c 0x80 with h1 | h1
  · have he : utf8Char c = [c] := by unfold utf8Char; simp [h1]
    rw [he]
    simp only [List.cons_append, List.nil_append]
    rw [utf8DecAux, if_pos h1]
  · rcases Nat.lt_or_ge c 0x800 with h2 | h2
    · have he : utf8Char c = [0xC0 + c / 64, 0x80 + c % 64] := by
        unfold utf8Char
        rw [if_neg (by omega), if_pos h2]
      rw [he]
      simp only [List.cons_append, List.nil_append]
      rw [utf8DecAux, if_neg (by omega), if_neg (by omega), if_pos (by omega)]
      rw [utf8DecAux, if_pos (by omega), if_pos (by omega)]
      have hc : (0xC0 + c / 64 - 0xC0) * 64 + (0x80 + c % 64 - 0x80) = c := by omega
      simp only [hc]
    · rcases Nat.lt_or_ge c 0x10000 with h3 | h3
      · have he : utf8Char c = [0xE0 + c / 4096, 0x80 + c / 64 % 64, 0x80 + c % 64] := by
          unfold utf8Char
          rw [if_neg (by omega), if_neg (by omega), if_pos h3]
        rw [he]
        simp only [List.cons_append, List.nil_append]
        rw [utf8DecAux, if_neg (by omega), if_neg (by omega), if_neg (by omega),
          if_pos (by omega)]
        rw [show (2 : Nat) = 0 + 2 from rfl, utf8DecAux, if_pos (by omega)]
        rw [utf8DecAux, if_pos (by omega), if_pos (by omega)]
        have hc : ((0xE0 + c / 4096 - 0xE0) * 64 + (0x80 + c / 64 % 64 - 0x80)) * 64 +
            (0x80 + c % 64 - 0x80) = c := by omega
        simp only [hc]
      · have he : utf8Char c = [0xF0 + c / 262144, 0x80 + c / 4096 % 64,
            0x80 + c / 64 % 64, 0x80 + c % 64] := by
          unfold utf8Char
          rw [if_neg (by omega), if_neg (by omega), if_neg (by omega)]
        rw [he]
        simp only [List.cons_append, List.nil_append]
        rw [utf8DecAux, if_neg (by omega), if_neg (by omega), if_neg (by omega),
          if_neg (by omega), if_pos (by omega)]
        rw [show (3 : Nat) = 1 + 2 from rfl, utf8DecAux, if_pos (by omega)]
        rw [show (1 + 1 : Nat) = 0 + 2 from rfl, utf8DecAux, if_pos (by omega)]
        rw [utf8DecAux, if_pos (by omega), if_pos (by omega)]
        have hc : (((0xF0 + c / 262144 - 0xF0) * 64 + (0x80 + c / 4096 % 64 - 0x80)) * 64 +
            (0x80 + c / 64 % 64 - 0x80)) * 64 + (0x80 + c % 64 - 0x80) = c := by omega
        simp only [hc]

theorem utf8_roundtrip (s : Str) (hs : ValidStr s) :
    utf8Decode (utf8Encode s) = some s := by
  induction s with
  | nil => rfl
  | cons c t ih =>
    have hc := hs c (by simp)
    have ht : ValidStr t := fun x hx => hs x (by simp [hx])
    have : utf8Encode (c :: t) = utf8Char c ++ utf8Encode t := by
      simp [utf8Encode]
    rw [this, utf8Decode_char c hc, ih ht]
    rfl

theorem utf8Encode_bytes_lt (s : Str) (hs : ValidStr s) :
    ∀ b ∈ utf8Encode s, b < 256 := by
  intro b hb
  simp only [utf8Encode, List.mem_flatten, List.mem_map] at hb
  obtain ⟨l, ⟨c, hcs, rfl⟩, hbl⟩ := hb
  have hc := hs c hcs
  exact utf8Char_bytes_lt c (by omega) b hbl

/-! ## Hex codec (`_encodeHex` / `_decodeHex`) -/

/-- One hex digit, lowercase, as `Number.prototype.toString(16)` prints it. -/
def hexDigit (n : Nat) : Nat := if n < 10 then 48 + n else 87 + n

/-- Value of a hex-digit code point (`parseInt(c, 16)` accepts both cases). -/
def hexVal (c : Nat) : Option Nat :=
  if 48 <= c && c <= 57 then some (c - 48)
  else if 97 <= c && c <= 102 then some (c - 87)
  else if 65 <= c && c <= 70 then some (c - 55)
  else none

/-- `byte.toString(16).padStart(2, '0')` for a byte below 256. -/
def byteToHex (b : Nat) : Str := [hexDigit (b / 16), hexDigit (b % 16)]

def bytesToHex (bs : List Nat) : Str := (bs.map byteToHex).flatten

/-- `data.match(/.{1,2}/g).map(b => parseInt(b, 16))`: split into groups of
two (a trailing lone digit forms its own group) and parse each.  The source
never throws here except on the empty string, where `match` yields `null`
and the catch block returns the input `''` -- which coincides with decoding
no bytes, so the empty case is modeled as `some []`.  Groups that are not
hex digits (where `parseInt` yields `NaN`, stored as byte 0) are modeled as
`none`; the engine only ever decodes its own hex output, which never
contains them. -/
def hexToBytes : Str -> Option (List Nat)
  | [] => some []
  | [c] => (hexVal c).map (fun v => [v])
  | c1 :: c2 :: t => do
    let v1 <- hexVal c1
    let v2 <- hexVal c2
    let rest <- hexToBytes t
    pure ((v1 * 16 + v2) :: rest)

/-- `_encodeHex`: UTF-8 bytes of the payload, two lowercase hex digits per
byte.  The try/catch fallback (return the input) is unreachable for
well-formed strings and is not modeled. -/
def _encodeHex (data : Str) : Str := bytesToHex (utf8Encode data)

/-- `_decodeHex`: split into two-digit groups, parse the bytes, decode as
UTF-8.  Failure is modeled as `none` (see `hexToBytes`, `utf8Decode`). -/
def _decodeHex (data : Str) : Option Str := (hexToBytes data).bind utf8Decode

theorem hexVal_hexDigit (n : Nat) (h : n < 16) : hexVal (hexDigit n) = some n := by
  unfold hexVal hexDigit
  interval_cases n <;> simp

theorem hexToBytes_bytesToHex (bs : List Nat) (h : forall b, b ∈ bs -> b < 256) :
    hexToBytes (bytesToHex bs) = some bs := by
  induction bs with
  | nil => rfl
  | cons b t ih =>
    have hb : b < 256 := h b (by simp)
    have ht := fun x hx => h x (List.mem_cons_of_mem _ hx)
    have he : bytesToHex (b :: t) = hexDigit (b / 16) :: hexDigit (b % 16) :: bytesToHex t := by
      simp [bytesToHex, byteToHex]
    rw [he]
    have h1 : hexVal (hexDigit (b / 16)) = some (b / 16) := hexVal_hexDigit _ (by omega)
    have h2 : hexVal (hexDigit (b % 16)) = some (b % 16) := hexVal_hexDigit _ (by omega)
    cases hbt : bytesToHex t with
    | nil =>
      rw [show hexDigit (b / 16) :: hexDigit (b % 16) :: ([] : List Nat) =
        [hexDigit (b / 16), hexDigit (b % 16)] from rfl]
      rw [hexToBytes, h1, h2]
      rw [hbt] at ih
      simp [ih ht, Option.bind]
      omega
    | cons x xs =>
      rw [hexToBytes, h1, h2]
      rw [hbt] at ih
      simp only [Option.bind_eq_bind, Option.some_bind]
      rw [<- hbt] at ih ⊢
      simp [ih ht]
      omega

theorem hex_roundtrip (p : Str) (hp : ValidStr p) : _decodeHex (_encodeHex p) = some p := by
  unfold _encodeHex _decodeHex
  rw [hexToBytes_bytesToHex _ (fun b hb => utf8Encode_bytes_lt p hp b hb)]
  simpa using utf8_roundtrip p hp

/-! ## Base64 codec (`_encodeBase64` / `_decodeBase64`) -/

/-- Code point of base64 alphabet entry `n` (standard alphabet). -/
def b64Char (n : Nat) : Nat :=
  if n < 26 then 65 + n
  else if n < 52 then 71 + n
  else if n < 62 then n - 4
  else if n = 62 then 43
  else 47

/-- Index of a base64 alphabet code point; `none` for anything else
(including the padding character). -/
def b64Val (c : Nat) : Option Nat :=
  if 65 <= c && c <= 90 then some (c - 65)
  else if 97 <= c && c <= 122 then some (c - 71)
  else if 48 <= c && c <= 57 then some (c + 4)
  else if c = 43 then some 62
  else if c = 47 then some 63
  else none

/-- Base64 of a byte list, canonical padded form, as `btoa` emits it. -/
def b64Encode : List Nat -> Str
  | [] => []
  | [a] => [b64Char (a / 4), b64Char (a % 4 * 16), 61, 61]
  | [a, b] => [b64Char (a / 4), b64Char (a % 4 * 16 + b / 16), b64Char (b % 16 * 4), 61]
  | a :: b :: c :: t =>
    b64Char (a / 4) :: b64Char (a % 4 * 16 + b / 16) :: b64Char (b % 16 * 4 + c / 64) ::
      b64Char (c % 64) :: b64Encode t

/-- Base64 decoding of a canonical padded string; `none` where `atob`
throws.  (`atob` itself is slightly more forgiving -- it strips ASCII
whitespace and accepts omitted padding -- but the engine only ever decodes
its own `btoa` output or falls through on strings that contain characters
outside the alphabet, where both the browser and this model fail.) -/
def b64Decode : Str -> Option (List Nat)
  | [] => some []
  | a :: b :: c :: d :: t => do
    let v1 <- b64Val a
    let v2 <- b64Val b
    if c = 61 then
      if d = 61 && t.isEmpty then pure [v1 * 4 + v2 / 16] else none
    else do
      let v3 <- b64Val c
      if d = 61 then
        if t.isEmpty then pure [v1 * 4 + v2 / 16, v2 % 16 * 16 + v3 / 4] else none
      else do
        let v4 <- b64Val d
        let rest <- b64Decode t
        pure ((v1 * 4 + v2 / 16) :: (v2 % 16 * 16 + v3 / 4) :: (v3 % 4 * 64 + v4) :: rest)
  | _ => none

/-- `btoa(s)`: throws unless every code unit is below 256. -/
def btoa (s : Str) : Option Str :=
  if s.all (fun c => c < 256) then some (b64Encode s) else none

/-- `atob(s)`: the decoded bytes as code points, or a throw. -/
def atob (s : Str) : Option Str := b64Decode s

/-- `_encodeBase64`: `btoa(data)`, and on a throw the catch block returns
`data` unchanged. -/
def _encodeBase64 (data : Str) : Str := (btoa data).getD data

/-- `_decodeBase64`: `atob(data)`, and on a throw the catch block returns
`data` unchanged. -/
def _decodeBase64 (data : Str) : Str := (atob data).getD data

theorem b64Val_b64Char : forall n, n < 64 -> b64Val (b64Char n) = some n := by decide

theorem b64Char_ne_pad : forall n, n < 64 -> b64Char n ≠ 61 := by decide

theorem b64Decode_b64Encode (bs : List Nat) (h : forall b, b ∈ bs -> b < 256) :
    b64Decode (b64Encode bs) = some bs := by
  induction bs using b64Encode.induct with
  | case1 => rfl
  | case2 a =>
    have ha : a < 256 := h a (by simp)
    rw [b64Encode, b64Decode]
    rw [b64Val_b64Char _ (by omega), b64Val_b64Char _ (by omega)]
    simp only [Option.bind_eq_bind, Option.some_bind, if_pos rfl]
    simp only [List.isEmpty_nil, Bool.and_true, if_pos rfl]
    simp
    omega
  | case3 a b =>
    have ha : a < 256 := h a (by simp)
    have hb : b < 256 := h b (by simp)
    rw [b64Encode, b64Decode]
    rw [b64Val_b64Char _ (by omega), b64Val_b64Char _ (by omega),
      b64Val_b64Char _ (by omega)]
    simp only [Option.bind_eq_bind, Option.some_bind]
    rw [if_neg (b64Char_ne_pad _ (by omega))]
    simp only [Option.some_bind, if_pos rfl, List.isEmpty_nil, if_pos rfl]
    simp
    constructor <;> omega
  | case4 a b c t ih =>
    have ha : a < 256 := h a (by simp)
    have hb : b < 256 := h b (by simp)
    have hc : c < 256 := h c (by simp)
    have ht : forall x, x ∈ t -> x < 256 := fun x hx => h x (by simp [hx])
    rw [b64Encode, b64Decode]
    rw [b64Val_b64Char _ (by omega), b64Val_b64Char _ (by omega),
      b64Val_b64Char _ (by omega), b64Val_b64Char _ (by omega)]
    simp only [Option.bind_eq_bind, Option.some_bind]
    rw [if_neg (b64Char_ne_pad _ (by omega)), if_neg (b64Char_ne_pad _ (by omega)), ih ht]
    simp only [Option.some_bind, Option.pure_def, Option.some.injEq, List.cons.injEq, eq_self_iff_true, and_true]
    omega

/-- Every string a successful `b64Decode` accepts consists of code points
below 256 (they are alphabet characters or padding). -/
theorem b64Val_lt (c v : Nat) (h : b64Val c = some v) : c < 256 := by
  by_cases hc : c < 256
  · exact hc
  · exfalso
    unfold b64Val at h
    rw [if_neg (by simp only [Bool.and_eq_true, decide_eq_true_eq]; omega),
      if_neg (by simp only [Bool.and_eq_true, decide_eq_true_eq]; omega),
      if_neg (by simp only [Bool.and_eq_true, decide_eq_true_eq]; omega),
      if_neg (by omega), if_neg (by omega)] at h
    exact Option.noConfusion h

theorem b64Decode_chars_lt (s : Str) (bs : List Nat) (hd : b64Decode s = some bs) :
    forall c, c ∈ s -> c < 256 := by
  induction s using b64Decode.induct generalizing bs with
  | case1 => intro c hc; exact absurd hc (List.not_mem_nil c)
  | case2 a b c d t ih =>
    intro x hx
    simp only [List.mem_cons] at hx
    rw [b64Decode] at hd
    simp only [Option.bind_eq_bind] at hd
    cases h1 : b64Val a with
    | none => rw [h1] at hd; simp at hd
    | some v1 =>
      rw [h1] at hd
      cases h2 : b64Val b with
      | none => rw [h2] at hd; simp at hd
      | some v2 =>
        rw [h2] at hd
        simp only [Option.some_bind] at hd
        have hva := b64Val_lt a v1 h1
        have hvb := b64Val_lt b v2 h2
        by_cases hcp : c = 61
        · rw [if_pos hcp] at hd
          have hdp : d = 61 ∧ t = [] := by
            by_cases hq : d = 61 && t.isEmpty
            · simp only [Bool.and_eq_true, decide_eq_true_eq, List.isEmpty_iff] at hq
              exact hq
            · rw [if_neg hq] at hd; simp at hd
          rcases hx with rfl | rfl | rfl | rfl | hx
          · exact hva
          · exact hvb
          · omega
          · omega
          · rw [hdp.2] at hx; exact absurd hx (List.not_mem_nil x)
        · rw [if_neg hcp] at hd
          cases h3 : b64Val c with
          | none => rw [h3] at hd; simp at hd
          | some v3 =>
            rw [h3] at hd
            simp only [Option.some_bind] at hd
            have hvc := b64Val_lt c v3 h3
            by_cases hdp : d = 61
            · rw [if_pos hdp] at hd
              have htq : t = [] := by
                by_cases hq : t.isEmpty
                · exact List.isEmpty_iff.mp hq
                · rw [if_neg (by simpa using hq)] at hd; simp at hd
              rcases hx with rfl | rfl | rfl | rfl | hx
              · exact hva
              · exact hvb
              · exact hvc
              · omega
              · rw [htq] at hx; exact absurd hx (List.not_mem_nil x)
            · rw [if_neg hdp] at hd
              cases h4 : b64Val d with
              | none => rw [h4] at hd; simp at hd
              | some v4 =>
                rw [h4] at hd
                simp only [Option.some_bind] at hd
                have hvd := b64Val_lt d v4 h4
                cases h5 : b64Decode t with
                | none => rw [h5] at hd; simp at hd
                | some rest =>
                  rcases hx with rfl | rfl | rfl | rfl | hx
                  · exact hva
                  · exact hvb
                  · exact hvc
                  · exact hvd
                  · exact ih rest h5 x hx
  | case3 s hn1 hn2 =>
    intro x hx
    exfalso
    rcases s with _ | ⟨a, _ | ⟨b, _ | ⟨c, _ | ⟨d, t⟩⟩⟩⟩
    · exact hn1 rfl
    · simp [b64Decode] at hd
    · simp [b64Decode] at hd
    · simp [b64Decode] at hd
    · exact hn2 a b c d t rfl

/-- `decode(encode(p)) = p` for `_encodeBase64`/`_decodeBase64` on every
string: Latin-1 payloads round-trip through `btoa`/`atob`; payloads with a
code unit above 255 make `btoa` throw, the catch returns the payload, and
`atob` then throws on the non-alphabet character, so the second catch
returns the payload again. -/
theorem base64_roundtrip (p : Str) : _decodeBase64 (_encodeBase64 p) = p := by
  unfold _encodeBase64 _decodeBase64 btoa atob
  by_cases hl : p.all (fun c => c < 256)
  · rw [if_pos hl]
    simp only [Option.getD_some]
    rw [b64Decode_b64Encode p (by intro b hb; have := List.all_eq_true.mp hl b hb; simpa using this)]
    rfl
  · rw [if_neg hl]
    simp only [Option.getD_none]
    cases hdec : b64Decode p with
    | none => rfl
    | some bs =>
      exfalso
      apply hl
      rw [List.all_eq_true]
      intro c hc
      simpa using b64Decode_chars_lt p bs hdec c hc

/-! ## XOR codec (`_xorEncrypt` / `_xorDecrypt`) -/

/-- The key byte used at position `i`: `keyBytes[i % keyBytes.length]`.
With an empty (or missing) key, `i % 0` is `NaN` in JS, the indexed read
yields `undefined`, and `byte ^ undefined` coerces to `byte ^ 0`. -/
def keyByteAt (ks : List Nat) (i : Nat) : Nat :=
  if ks.length = 0 then 0 else ks.getD (i % ks.length) 0

/-- `dataBytes[i] ^ keyBytes[i % keyBytes.length]` over all positions. -/
def xorBytes (ks : List Nat) : Nat -> List Nat -> List Nat
  | _, [] => []
  | i, b :: t => (b ^^^ keyByteAt ks i) :: xorBytes ks (i + 1) t

/-- `_xorEncrypt(data, key)`: XOR the UTF-8 payload bytes against the
cyclically repeated UTF-8 key bytes, then hex-encode the result.  A missing
key encodes as the empty byte list (`TextEncoder().encode(undefined)` uses
the default argument `''`).  The try/catch fallback (return the input) is
unreachable for well-formed strings and is not modeled. -/
def _xorEncrypt (data key : Str) : Str :=
  bytesToHex (xorBytes (utf8Encode key) 0 (utf8Encode data))

/-- `_xorDecrypt(data, key)`: hex-decode the ciphertext bytes, XOR against
the cyclically repeated key bytes, UTF-8 decode.  Failure is `none` (see
`hexToBytes`, `utf8Decode`); the source catch returns the input, which the
storage caller then fails to JSON-parse, with the same `null` outcome. -/
def _xorDecrypt (data key : Str) : Option Str :=
  (hexToBytes data).bind (fun bs => utf8Decode (xorBytes (utf8Encode key) 0 bs))

theorem keyByteAt_lt (ks : List Nat) (hk : forall b, b ∈ ks -> b < 256) (i : Nat) :
    keyByteAt ks i < 256 := by
  unfold keyByteAt
  split
  · omega
  · next h =>
    have hlt : i % ks.length < ks.length := Nat.mod_lt _ (by omega)
    rw [List.getD_eq_getElem ks 0 hlt]
    exact hk _ (List.getElem_mem hlt)

theorem xorBytes_lt (ks : List Nat) (hk : forall b, b ∈ ks -> b < 256)
    (ds : List Nat) (hd : forall b, b ∈ ds -> b < 256) (i : Nat) :
    forall b, b ∈ xorBytes ks i ds -> b < 256 := by
  induction ds generalizing i with
  | nil => intro b hb; rw [xorBytes] at hb; exact absurd hb (List.not_mem_nil b)
  | cons x t ih =>
    intro b hb
    rw [xorBytes] at hb
    rcases List.mem_cons.mp hb with rfl | hb
    · have h1 : x < 256 := hd x (by simp)
      have h2 := keyByteAt_lt ks hk i
      have h256 : (256 : Nat) = 2 ^ 8 := rfl
      rw [h256] at h1 h2 ⊢
      exact Nat.xor_lt_two_pow h1 h2
    · exact ih (fun y hy => hd y (by simp [hy])) (i + 1) b hb

theorem xorBytes_invol (ks : List Nat) (ds : List Nat) (i : Nat) :
    xorBytes ks i (xorBytes ks i ds) = ds := by
  induction ds generalizing i with
  | nil => rfl
  | cons x t ih =>
    rw [xorBytes, xorBytes, Nat.xor_assoc, Nat.xor_self, Nat.xor_zero, ih]

theorem xor_roundtrip (p key : Str) (hp : ValidStr p) (hk : ValidStr key) :
    _xorDecrypt (_xorEncrypt p key) key = some p := by
  unfold _xorEncrypt _xorDecrypt
  rw [hexToBytes_bytesToHex _
    (xorBytes_lt _ (utf8Encode_bytes_lt key hk) _ (utf8Encode_bytes_lt p hp) 0)]
  simp only [Option.some_bind]
  rw [xorBytes_invol]
  exact utf8_roundtrip p hp

/-- With an empty (or absent) key the XOR step is the identity, so
`_xorEncrypt` degenerates to plain hex encoding of the payload. -/
theorem xorBytes_nil_key (ds : List Nat) (i : Nat) : xorBytes [] i ds = ds := by
  induction ds generalizing i with
  | nil => rfl
  | cons x t ih =>
    rw [xorBytes, ih]
    simp [keyByteAt]

theorem xorEncrypt_nil_key (data : Str) : _xorEncrypt data [] = _encodeHex data := by
  unfold _xorEncrypt _encodeHex
  rw [show utf8Encode [] = [] from rfl, xorBytes_nil_key]

/-! ## The storage envelope and its JSON serialization -/

/-- The `{value, timestamp}` object `_setStorage` builds.  `timestamp` is
`Date.now()` at write time when an expiration is configured, `null`
otherwise. -/
structure Envelope where
  value : Str
  timestamp : Option Nat
deriving DecidableEq

/-- Decimal digits of `n`, as `JSON.stringify` prints a (safe-integer)
number.  Written with explicit fuel so it reduces in the kernel;
`natToDec` supplies fuel `n + 1`, which always suffices. -/
def natToDecAux : Nat -> Nat -> Str
  | 0, _ => []
  | fuel + 1, n => if n < 10 then [48 + n] else natToDecAux fuel (n / 10) ++ [48 + n % 10]

def natToDec (n : Nat) : Str := natToDecAux (n + 1) n

/-- Numeric value of a digit string. -/
def decVal (ds : Str) : Nat := ds.foldl (fun a c => a * 10 + (c - 48)) 0

/-- Is the code point a decimal digit? -/
def isDigitCh (c : Nat) : Bool := 48 ≤ c && c ≤ 57

/-- `JSON.stringify` escaping of one string character. -/
def escChar (c : Nat) : Str :=
  if c = 34 then [92, 34]
  else if c = 92 then [92, 92]
  else if c = 8 then [92, 98]
  else if c = 9 then [92, 116]
  else if c = 10 then [92, 110]
  else if c = 12 then [92, 102]
  else if c = 13 then [92, 114]
  else if c < 32 then [92, 117, 48, 48, hexDigit (c / 16), hexDigit (c % 16)]
  else [c]

def jsonEscape (s : Str) : Str := (s.map escChar).flatten

/-- Single-character JSON escapes accepted after a backslash. -/
def unescCode (e : Nat) : Option Nat :=
  if e = 34 then some 34
  else if e = 92 then some 92
  else if e = 47 then some 47
  else if e = 98 then some 8
  else if e = 116 then some 9
  else if e = 110 then some 10
  else if e = 102 then some 12
  else if e = 114 then some 13
  else none

/-- JSON string-body parser: consumes characters up to an unescaped closing
quote and returns the decoded content together with the remainder after the
quote.  Fueled so it reduces in the kernel; callers supply fuel above the
input length, which always suffices. -/
def unescAux : Nat -> Str -> Option (Str × Str)
  | 0, _ => none
  | _ + 1, [] => none
  | f + 1, c :: t =>
    if c = 34 then some ([], t)
    else if c = 92 then
      match t with
      | [] => none
      | e :: t2 =>
        if e = 117 then
          match t2 with
          | h1 :: h2 :: h3 :: h4 :: t3 =>
            match hexVal h1, hexVal h2, hexVal h3, hexVal h4 with
            | some v1, some v2, some v3, some v4 =>
              match unescAux f t3 with
              | some (s, r) => some ((((v1 * 16 + v2) * 16 + v3) * 16 + v4) :: s, r)
              | none => none
            | _, _, _, _ => none
          | _ => none
        else
          match unescCode e with
          | some d =>
            match unescAux f t2 with
            | some (s, r) => some (d :: s, r)
            | none => none
          | none => none
    else if c < 32 then none
    else
      match unescAux f t with
      | some (s, r) => some (c :: s, r)
      | none => none

def unescString (s : Str) : Option (Str × Str) := unescAux (s.length + 1) s

/-- Remove an exact leading token. -/
def stripTok : Str -> Str -> Option Str
  | [], s => some s
  | _ :: _, [] => none
  | p :: ps, c :: cs => if c = p then stripTok ps cs else none

/-- `JSON.stringify({value, timestamp})`, with the object-literal key order
the source uses. -/
def stringifyEnvelope (e : Envelope) : Str :=
  S "\x7b\"value\":\"" ++ jsonEscape e.value ++ S "\",\"timestamp\":" ++
    (match e.timestamp with
     | none => S "null"
     | some t => natToDec t) ++ S "\x7d"

/-- `JSON.parse`, specialized to the envelope shape `_setStorage` writes.
Anything else the engine feeds it is a parse failure (`none`), which every
caller's catch block converts to `null`. -/
def parseEnvelope (s : Str) : Option Envelope :=
  match stripTok (S "\x7b\"value\":\"") s with
  | none => none
  | some s1 =>
    match unescString s1 with
    | none => none
    | some (v, s2) =>
      match stripTok (S ",\"timestamp\":") s2 with
      | none => none
      | some s3 =>
        match stripTok (S "null\x7d") s3 with
        | some rest => if rest = [] then some ⟨v, none⟩ else none
        | none =>
          if s3.takeWhile isDigitCh ≠ [] ∧ s3.dropWhile isDigitCh = [125] then
            some ⟨v, some (decVal (s3.takeWhile isDigitCh))⟩
          else none

theorem natToDecAux_digits (fuel : Nat) :
    forall n, n < fuel -> forall c, c ∈ natToDecAux fuel n -> 48 ≤ c ∧ c ≤ 57 := by
  induction fuel with
  | zero => omega
  | succ f ih =>
    intro n hn c hc
    rw [natToDecAux] at hc
    split at hc
    · simp at hc; omega
    · rcases List.mem_append.mp hc with h1 | h1
      · exact ih (n / 10) (by omega) c h1
      · simp at h1; omega

theorem natToDec_digits (n : Nat) : forall c, c ∈ natToDec n -> 48 ≤ c ∧ c ≤ 57 :=
  natToDecAux_digits (n + 1) n (by omega)

theorem natToDec_ne_nil (n : Nat) : natToDec n ≠ [] := by
  unfold natToDec
  rw [natToDecAux]
  split
  · simp
  · simp

theorem decVal_natToDecAux (fuel : Nat) :
    forall n a, n < fuel ->
      List.foldl (fun a c => a * 10 + (c - 48)) a (natToDecAux fuel n) =
        a * 10 ^ (natToDecAux fuel n).length + n := by
  induction fuel with
  | zero => omega
  | succ f ih =>
    intro n a hn
    rw [natToDecAux]
    split
    · next h => simp
    · next h =>
      rw [List.foldl_append, ih (n / 10) a (by omega)]
      simp only [List.foldl_cons, List.foldl_nil, List.length_append, List.length_cons,
        List.length_nil, Nat.zero_add, pow_succ, <- Nat.mul_assoc]
      generalize a * 10 ^ (natToDecAux f (n / 10)).length = Y
      omega

theorem decVal_natToDec (n : Nat) : decVal (natToDec n) = n := by
  unfold decVal natToDec
  rw [decVal_natToDecAux (n + 1) n 0 (by omega)]
  simp

theorem stripTok_append (p r : Str) : stripTok p (p ++ r) = some r := by
  induction p with
  | nil => rfl
  | cons c t ih => rw [List.cons_append, stripTok, if_pos rfl, ih]

theorem jsonEscape_nil : jsonEscape [] = [] := rfl

theorem jsonEscape_cons (c : Nat) (t : Str) :
    jsonEscape (c :: t) = escChar c ++ jsonEscape t := by
  simp [jsonEscape]

theorem jsonEscape_length (s : Str) : s.length ≤ (jsonEscape s).length := by
  induction s with
  | nil => simp [jsonEscape]
  | cons c t ih =>
    rw [jsonEscape_cons, List.length_append]
    have h1 : 1 ≤ (escChar c).length := by
      unfold escChar
      split_ifs <;> simp
    simp only [List.length_cons]
    omega

theorem unescAux_jsonEscape (s : Str) :
    forall fuel r, s.length < fuel ->
      unescAux fuel (jsonEscape s ++ 34 :: r) = some (s, r) := by
  induction s with
  | nil =>
    intro fuel r h
    cases fuel with
    | zero => omega
    | succ f =>
      rw [jsonEscape_nil, List.nil_append, unescAux.eq_def]
      norm_num
  | cons c t ih =>
    intro fuel r h
    cases fuel with
    | zero => omega
    | succ f =>
      have hlt : t.length < f := by
        simp only [List.length_cons] at h
        omega
      rw [jsonEscape_cons, List.append_assoc]
      by_cases h34 : c = 34
      · subst h34
        rw [show escChar 34 = [92, 34] from rfl, List.cons_append, List.cons_append,
          List.nil_append, unescAux.eq_def]
        norm_num [unescCode]
        rw [ih f r hlt]
      · by_cases h92 : c = 92
        · subst h92
          rw [show escChar 92 = [92, 92] from rfl, List.cons_append, List.cons_append,
            List.nil_append, unescAux.eq_def]
          norm_num [unescCode]
          rw [ih f r hlt]
        · by_cases h8 : c = 8
          · subst h8
            rw [show escChar 8 = [92, 98] from rfl, List.cons_append, List.cons_append,
              List.nil_append, unescAux.eq_def]
            norm_num [unescCode]
            rw [ih f r hlt]
          · by_cases h9 : c = 9
            · subst h9
              rw [show escChar 9 = [92, 116] from rfl, List.cons_append, List.cons_append,
                List.nil_append, unescAux.eq_def]
              norm_num [unescCode]
              rw [ih f r hlt]
            · by_cases h10 : c = 10
              · subst h10
                rw [show escChar 10 = [92, 110] from rfl, List.cons_append, List.cons_append,
                  List.nil_append, unescAux.eq_def]
                norm_num [unescCode]
                rw [ih f r hlt]
              · by_cases h12 : c = 12
                · subst h12
                  rw [show escChar 12 = [92, 102] from rfl, List.cons_append, List.cons_append,
                    List.nil_append, unescAux.eq_def]
                  norm_num [unescCode]
                  rw [ih f r hlt]
                · by_cases h13 : c = 13
                  · subst h13
                    rw [show escChar 13 = [92, 114] from rfl, List.cons_append,
                      List.cons_append, List.nil_append, unescAux.eq_def]
                    norm_num [unescCode]
                    rw [ih f r hlt]
                  · by_cases hctl : c < 32
                    · have hesc : escChar c =
                          [92, 117, 48, 48, hexDigit (c / 16), hexDigit (c % 16)] := by
                        unfold escChar
                        rw [if_neg h34, if_neg h92, if_neg h8, if_neg h9, if_neg h10,
                          if_neg h12, if_neg h13, if_pos hctl]
                      rw [hesc]
                      simp only [List.cons_append, List.nil_append]
                      rw [unescAux.eq_def]
                      norm_num
                      rw [show hexVal 48 = some 0 from rfl,
                        hexVal_hexDigit (c / 16) (by omega),
                        hexVal_hexDigit (c % 16) (by omega)]
                      simp only []
                      rw [ih f r hlt]
                      simp only [Option.some.injEq, Prod.mk.injEq, List.cons.injEq,
                        and_true, eq_self_iff_true]
                      omega
                    · have hesc : escChar c = [c] := by
                        unfold escChar
                        rw [if_neg h34, if_neg h92, if_neg h8, if_neg h9, if_neg h10,
                          if_neg h12, if_neg h13, if_neg hctl]
                      rw [hesc, List.cons_append, List.nil_append, unescAux.eq_def]
                      simp only []
                      rw [if_neg h34, if_neg h92, if_neg (by omega)]
                      rw [ih f r hlt]

theorem takeWhile_all_append (p : Nat -> Bool) (ds r : Str)
    (h : forall x, x ∈ ds -> p x = true) :
    (ds ++ r).takeWhile p = ds ++ r.takeWhile p := by
  induction ds with
  | nil => simp
  | cons d t ih =>
    rw [List.cons_append, List.takeWhile_cons, h d (by simp),
      ih (fun x hx => h x (by simp [hx]))]
    rfl

theorem dropWhile_all_append (p : Nat -> Bool) (ds r : Str)
    (h : forall x, x ∈ ds -> p x = true) :
    (ds ++ r).dropWhile p = r.dropWhile p := by
  induction ds with
  | nil => simp
  | cons d t ih =>
    rw [List.cons_append, List.dropWhile_cons, h d (by simp)]
    simp only [if_true]
    exact ih (fun x hx => h x (by simp [hx]))

theorem stripTok_null_natToDec (t : Nat) :
    stripTok (S "null\x7d") (natToDec t ++ [125]) = none := by
  cases hnd : natToDec t with
  | nil => exact absurd hnd (natToDec_ne_nil t)
  | cons d ds =>
    have hd : 48 ≤ d ∧ d ≤ 57 := natToDec_digits t d (by rw [hnd]; simp)
    rw [List.cons_append, show (S "null\x7d" : Str) = 110 :: S "ull\x7d" from rfl, stripTok,
      if_neg (by omega)]

theorem parse_stringify (e : Envelope) : parseEnvelope (stringifyEnvelope e) = some e := by
  obtain ⟨v, ts⟩ := e
  unfold parseEnvelope stringifyEnvelope
  simp only [List.append_assoc]
  rw [stripTok_append]
  simp only []
  rw [show (S "\",\"timestamp\":" : Str) = 34 :: S ",\"timestamp\":" from rfl,
    List.cons_append]
  unfold unescString
  rw [unescAux_jsonEscape v _ _ (by
    have := jsonEscape_length v
    simp only [List.length_append, List.length_cons]
    omega)]
  simp only []
  rw [stripTok_append]
  simp only []
  cases ts with
  | none =>
    rw [show ((S "null" : Str) ++ S "\x7d") = S "null\x7d" ++ ([] : Str) from by decide,
      stripTok_append]
    simp
  | some t =>
    rw [show (S "\x7d" : Str) = [125] from rfl, stripTok_null_natToDec]
    simp only []
    have hdig : forall x, x ∈ natToDec t -> isDigitCh x = true := by
      intro x hx
      have := natToDec_digits t x hx
      simp only [isDigitCh, Bool.and_eq_true, decide_eq_true_eq]
      omega
    rw [takeWhile_all_append _ _ _ hdig, dropWhile_all_append _ _ _ hdig,
      List.takeWhile_cons, List.dropWhile_cons]
    rw [show isDigitCh 125 = false from rfl]
    simp only [Bool.false_eq_true, if_false, List.append_nil]
    rw [if_pos ⟨natToDec_ne_nil t, trivial⟩, decVal_natToDec]

theorem escChar_valid (c : Nat) (h : c < 0xD800 ∨ (0xDFFF < c ∧ c < 0x110000)) :
    forall x, x ∈ escChar c -> x < 0xD800 ∨ (0xDFFF < x ∧ x < 0x110000) := by
  intro x hx
  unfold escChar at hx
  split_ifs at hx with h1 h2 h3 h4 h5 h6 h7 h8
  · simp at hx; omega
  · simp at hx; omega
  · simp at hx; omega
  · simp at hx; omega
  · simp at hx; omega
  · simp at hx; omega
  · simp at hx; omega
  · simp at hx
    have hx1 : hexDigit (c / 16) < 128 := by unfold hexDigit; split <;> omega
    have hx2 : hexDigit (c % 16) < 128 := by unfold hexDigit; split <;> omega
    rcases hx with rfl | rfl | rfl | rfl | rfl <;> omega
  · simp at hx
    subst hx
    exact h

theorem jsonEscape_valid (s : Str) (hs : ValidStr s) : ValidStr (jsonEscape s) := by
  intro x hx
  unfold jsonEscape at hx
  simp only [List.mem_flatten, List.mem_map] at hx
  obtain ⟨l, ⟨c, hcs, rfl⟩, hxl⟩ := hx
  exact escChar_valid c (hs c hcs) x hxl

theorem stringifyEnvelope_valid (e : Envelope) (hv : ValidStr e.value) :
    ValidStr (stringifyEnvelope e) := by
  intro x hx
  unfold stringifyEnvelope at hx
  rcases List.mem_append.mp hx with hx | hx
  · rcases List.mem_append.mp hx with hx | hx
    · rcases List.mem_append.mp hx with hx | hx
      · rcases List.mem_append.mp hx with hx | hx
        · exact S_valid _ x hx
        · exact jsonEscape_valid e.value hv x hx
      · exact S_valid _ x hx
    · cases hts : e.timestamp with
      | none =>
        rw [hts] at hx
        exact S_valid _ x hx
      | some t =>
        rw [hts] at hx
        have := natToDec_digits t x hx
        omega
  · exact S_valid _ x hx

theorem stringifyEnvelope_head (e : Envelope) : ∃ t, stringifyEnvelope e = 123 :: t := by
  unfold stringifyEnvelope
  rw [show (S "\x7b\"value\":\"" : Str) = 123 :: S "\"value\":\"" from rfl]
  simp only [List.cons_append]
  exact ⟨_, rfl⟩

theorem stringifyEnvelope_ne_nil (e : Envelope) : stringifyEnvelope e ≠ [] := by
  obtain ⟨t, ht⟩ := stringifyEnvelope_head e
  simp [ht]

/-- The serialized envelope starts with a brace, so `atob` throws on it --
the fallback path the store takes when `btoa` failed on non-Latin-1 data. -/
theorem b64Decode_stringify (e : Envelope) : b64Decode (stringifyEnvelope e) = none := by
  obtain ⟨t, ht⟩ := stringifyEnvelope_head e
  rw [ht]
  rcases t with _ | ⟨b, _ | ⟨c2, _ | ⟨d, t2⟩⟩⟩
  · simp [b64Decode]
  · simp [b64Decode]
  · simp [b64Decode]
  · rw [b64Decode, show b64Val 123 = none from rfl]
    simp

/-! ## Configuration (`_config.storage`) and the storage backends -/

/-- `storage.encryption` as the source reads it.  The built-in default is
`{enabled: true, method: 'xor'}` with no `key` field at all, so reading the
key yields `undefined` (modeled `none`); `TextEncoder().encode(undefined)`
then encodes the default argument `''`, i.e. the empty byte list. -/
structure EncCfg where
  enabled : Bool
  method : Str
  key : Option Str
deriving DecidableEq

/-- `config.storage`: every field may be absent (`undefined`), because
`run` merges the supplied options object shallowly, so a partial `storage`
object replaces the default one wholesale. -/
structure StoCfg where
  type : Option Str
  expiration : Option Nat
  encryption : Option EncCfg
deriving DecidableEq

/-- One browser storage backend, as an association list. -/
abbrev Store := List (Str × Str)

/-- The process-wide `localStorage` / `sessionStorage` pair. -/
structure StoreState where
  localS : Store
  sessionS : Store
deriving DecidableEq

def lookupA : Store -> Str -> Option Str
  | [], _ => none
  | (k, v) :: t, key => if k = key then some v else lookupA t key

def setA : Store -> Str -> Str -> Store
  | [], key, v => [(key, v)]
  | (k, w) :: t, key, v => if k = key then (k, v) :: t else (k, w) :: setA t key v

def removeA : Store -> Str -> Store
  | [], _ => []
  | (k, w) :: t, key => if k = key then removeA t key else (k, w) :: removeA t key

/-- `this._config.storage.type === 'session' ? sessionStorage : localStorage`:
anything other than the exact string `'session'` (including `undefined`)
selects `localStorage`. -/
def readBackend (c : StoCfg) (st : StoreState) (k : Str) : Option Str :=
  if c.type = some (S "session") then lookupA st.sessionS k else lookupA st.localS k

def writeBackend (c : StoCfg) (st : StoreState) (k v : Str) : StoreState :=
  if c.type = some (S "session") then { st with sessionS := setA st.sessionS k v }
  else { st with localS := setA st.localS k v }

def removeBackend (c : StoCfg) (st : StoreState) (k : Str) : StoreState :=
  if c.type = some (S "session") then { st with sessionS := removeA st.sessionS k }
  else { st with localS := removeA st.localS k }

/-- `expiration ? Date.now() : null`: a configured expiration is truthy
unless it is `0` (`null` and `0` are both falsy). -/
def truthyExp : Option Nat -> Bool
  | none => false
  | some t => t != 0

/-- The string `_setStorage` hands to `setItem` (source lines 226-246): the
serialized envelope, encoded per the encryption branch.  With encryption
enabled but an unrecognized `method` (none of `'hex'`/`'xor'`/`'base64'`),
no branch reassigns `data`, so `setItem` stores the object coerced to the
string `'[object Object]'`. -/
def encodeData (enc : EncCfg) (j : Str) : Str :=
  if enc.enabled then
    if enc.method = S "hex" then _encodeHex j
    else if enc.method = S "xor" then _xorEncrypt j (enc.key.getD [])
    else if enc.method = S "base64" then _encodeBase64 j
    else S "[object Object]"
  else j

/-- `_setStorage(key, value)`: build the `{value, timestamp}` envelope,
serialize and encode it, store it in the configured backend.  `broken`
models a throwing backend (`setItem` fails, the catch leaves the state
unchanged).  A merged partial storage config with `encryption === undefined`
throws a TypeError at `encryption.enabled` before `setItem` runs -- also
caught, also a no-op. -/
def _setStorage (c : StoCfg) (broken : Bool) (now : Nat) (st : StoreState)
    (key value : Str) : StoreState :=
  match c.encryption with
  | none => st
  | some enc =>
    let data :=
      encodeData enc
        (stringifyEnvelope ⟨value, if truthyExp c.expiration then some now else none⟩)
    if broken then st else writeBackend c st key data

/-- What `_getStorage` returns: `null`, `undefined` (a read that slipped
past the `theme === null` check in `run`), or a string. -/
inductive RVal where
  | rnull : RVal
  | rundef : RVal
  | rstr : Str -> RVal
deriving DecidableEq

/-- The decode half of `_getStorage` for a recognized configuration:
decode per method, then `JSON.parse`.  Any failure is `none` (the
source's catch returns `null`). -/
def decodeStored (enc : EncCfg) (data : Str) : Option Envelope :=
  if enc.enabled then
    if enc.method = S "hex" then (_decodeHex data).bind parseEnvelope
    else if enc.method = S "xor" then (_xorDecrypt data (enc.key.getD [])).bind parseEnvelope
    else if enc.method = S "base64" then parseEnvelope (_decodeBase64 data)
    else none
  else parseEnvelope data

/-- The tail of `_getStorage` once `data` is a parsed envelope:
`if (expiration && Date.now() - data.timestamp > expiration)` delete and
return `null`, else return `data.value`.  A `null` timestamp coerces to
`0` in the subtraction. -/
def envCheck (c : StoCfg) (now : Nat) (st : StoreState) (key : Str)
    (r : Option Envelope) : RVal × StoreState :=
  match r with
  | none => (RVal.rnull, st)
  | some e =>
    match c.expiration with
    | none => (RVal.rstr e.value, st)
    | some exp =>
      if exp ≠ 0 ∧
          ((now : Int) - (match e.timestamp with | none => 0 | some t => (t : Int)) >
            (exp : Int)) then
        (RVal.rnull, removeBackend c st key)
      else (RVal.rstr e.value, st)

/-- Is the configured method one the decode chain recognizes? -/
def recognized (enc : EncCfg) : Prop :=
  enc.method = S "hex" ∨ enc.method = S "xor" ∨ enc.method = S "base64"

instance (enc : EncCfg) : Decidable (recognized enc) := by
  unfold recognized; infer_instance

/-- `_getStorage(key)` (source lines 259-293).  With encryption enabled and
an unrecognized method, `data` stays the raw string: `data.timestamp` is
`undefined`, the `NaN` comparison skips expiry, and `data.value` is
`undefined` -- which the caller's `theme === null` test does not catch. -/
def _getStorage (c : StoCfg) (broken : Bool) (now : Nat) (st : StoreState)
    (key : Str) : RVal × StoreState :=
  if broken then (RVal.rnull, st)
  else
    match readBackend c st key with
    | none => (RVal.rnull, st)
    | some data =>
      if data = [] then (RVal.rnull, st)
      else
        match c.encryption with
        | none => (RVal.rnull, st)
        | some enc =>
          if enc.enabled = true ∧ ¬recognized enc then (RVal.rundef, st)
          else envCheck c now st key (decodeStored enc data)

/-- The configurations on which write-then-read round-trips: encryption
disabled, or a recognized method (with a well-formed key string for `xor`;
an absent key behaves as `''`). -/
def GoodEnc (enc : EncCfg) : Prop :=
  enc.enabled = false ∨ enc.method = S "hex" ∨
    (enc.method = S "xor" ∧ ValidStr (enc.key.getD [])) ∨ enc.method = S "base64"

instance (enc : EncCfg) : Decidable (GoodEnc enc) := by
  unfold GoodEnc; infer_instance

theorem lookupA_setA (s : Store) (k v : Str) : lookupA (setA s k v) k = some v := by
  induction s with
  | nil => simp [setA, lookupA]
  | cons p t ih =>
    obtain ⟨pk, pv⟩ := p
    rw [setA]
    by_cases h : pk = k
    · rw [if_pos h, lookupA, if_pos h]
    · rw [if_neg h, lookupA, if_neg h, ih]

theorem lookupA_removeA (s : Store) (k : Str) : lookupA (removeA s k) k = none := by
  induction s with
  | nil => rfl
  | cons p t ih =>
    obtain ⟨pk, pv⟩ := p
    rw [removeA]
    by_cases h : pk = k
    · rw [if_pos h]; exact ih
    · rw [if_neg h, lookupA, if_neg h]; exact ih

theorem readBackend_writeBackend (c c' : StoCfg) (h : c.type = c'.type)
    (st : StoreState) (k v : Str) :
    readBackend c' (writeBackend c st k v) k = some v := by
  unfold readBackend writeBackend
  rw [<- h]
  by_cases ht : c.type = some (S "session")
  · rw [if_pos ht, if_pos ht]
    exact lookupA_setA _ _ _
  · rw [if_neg ht, if_neg ht]
    exact lookupA_setA _ _ _

theorem readBackend_removeBackend (c c' : StoCfg) (h : c.type = c'.type)
    (st : StoreState) (k : Str) :
    readBackend c' (removeBackend c st k) k = none := by
  unfold readBackend removeBackend
  rw [<- h]
  by_cases ht : c.type = some (S "session")
  · rw [if_pos ht, if_pos ht]
    exact lookupA_removeA _ _
  · rw [if_neg ht, if_neg ht]
    exact lookupA_removeA _ _

theorem utf8Encode_cons (c : Nat) (t : Str) :
    utf8Encode (c :: t) = utf8Char c ++ utf8Encode t := by
  simp [utf8Encode]

theorem bytesToHex_cons (b : Nat) (l : List Nat) :
    bytesToHex (b :: l) = hexDigit (b / 16) :: hexDigit (b % 16) :: bytesToHex l := by
  simp [bytesToHex, byteToHex]

theorem utf8Char_ne_nil (c : Nat) : utf8Char c ≠ [] := by
  unfold utf8Char
  split_ifs <;> simp

theorem utf8Encode_ne_nil (s : Str) (h : s ≠ []) : utf8Encode s ≠ [] := by
  cases s with
  | nil => exact absurd rfl h
  | cons c t =>
    rw [utf8Encode_cons]
    intro hc
    rcases List.append_eq_nil.mp hc with ⟨h1, _⟩
    exact utf8Char_ne_nil c h1

theorem bytesToHex_ne_nil (l : List Nat) (h : l ≠ []) : bytesToHex l ≠ [] := by
  cases l with
  | nil => exact absurd rfl h
  | cons b t => rw [bytesToHex_cons]; simp

theorem xorBytes_ne_nil (ks l : List Nat) (i : Nat) (h : l ≠ []) :
    xorBytes ks i l ≠ [] := by
  cases l with
  | nil => exact absurd rfl h
  | cons b t => rw [xorBytes]; simp

theorem b64Encode_ne_nil (l : List Nat) (h : l ≠ []) : b64Encode l ≠ [] := by
  rcases l with _ | ⟨a, _ | ⟨b, _ | ⟨c, t⟩⟩⟩
  · exact absurd rfl h
  · rw [b64Encode]; simp
  · rw [b64Encode]; simp
  · rw [b64Encode]; simp

/-- Whatever the configuration, the stored string is never empty, so the
`if (!data) return null` guard never fires on the store's own writes. -/
theorem encodeData_ne_nil (enc : EncCfg) (e : Envelope) :
    encodeData enc (stringifyEnvelope e) ≠ [] := by
  unfold encodeData
  split_ifs with h1 h2 h3 h4
  · exact bytesToHex_ne_nil _ (utf8Encode_ne_nil _ (stringifyEnvelope_ne_nil e))
  · exact bytesToHex_ne_nil _
      (xorBytes_ne_nil _ _ _ (utf8Encode_ne_nil _ (stringifyEnvelope_ne_nil e)))
  · unfold _encodeBase64 btoa
    split_ifs with h5
    · simp only [Option.getD_some]
      exact b64Encode_ne_nil _ (stringifyEnvelope_ne_nil e)
    · simp only [Option.getD_none]
      exact stringifyEnvelope_ne_nil e
  · simp [S]
  · exact stringifyEnvelope_ne_nil e

/-- On every good configuration, decoding the stored string recovers the
envelope exactly. -/
theorem decodeStored_encodeData (enc : EncCfg) (hg : GoodEnc enc) (e : Envelope)
    (hv : ValidStr e.value) :
    decodeStored enc (encodeData enc (stringifyEnvelope e)) = some e := by
  have hj : ValidStr (stringifyEnvelope e) := stringifyEnvelope_valid e hv
  unfold decodeStored encodeData
  rcases hg with hg | hg | ⟨hg, hk⟩ | hg
  · rw [hg]
    simp only [Bool.false_eq_true, if_false]
    exact parse_stringify e
  · rw [hg]
    by_cases he : enc.enabled
    · simp only [he, if_true, show ((S "hex" : Str) = S "hex") = True from by decide]
      rw [hex_roundtrip _ hj]
      simp only [Option.some_bind]
      exact parse_stringify e
    · simp only [he, if_false]
      exact parse_stringify e
  · rw [hg]
    by_cases he : enc.enabled
    · simp only [he, if_true, show ((S "xor" : Str) = S "hex") = False from by decide,
        show ((S "xor" : Str) = S "xor") = True from by decide, if_false]
      rw [xor_roundtrip _ _ hj hk]
      simp only [Option.some_bind]
      exact parse_stringify e
    · simp only [he, if_false]
      exact parse_stringify e
  · rw [hg]
    by_cases he : enc.enabled
    · simp only [he, if_true, show ((S "base64" : Str) = S "hex") = False from by decide,
        show ((S "base64" : Str) = S "xor") = False from by decide,
        show ((S "base64" : Str) = S "base64") = True from by decide, if_false]
      rw [base64_roundtrip]
      exact parse_stringify e
    · simp only [he, if_false]
      exact parse_stringify e

theorem goodEnc_not_undef (enc : EncCfg) (hg : GoodEnc enc) :
    ¬(enc.enabled = true ∧ ¬recognized enc) := by
  rcases hg with hg | hg | ⟨hg, _⟩ | hg
  · rintro ⟨h1, _⟩; rw [hg] at h1; exact Bool.false_ne_true h1
  · rintro ⟨_, h2⟩; exact h2 (Or.inl hg)
  · rintro ⟨_, h2⟩; exact h2 (Or.inr (Or.inl hg))
  · rintro ⟨_, h2⟩; exact h2 (Or.inr (Or.inr hg))

/-- Master read-after-write lemma: with a shared backend and a good
encryption configuration, a read at time `nowr` of a value written at time
`noww` reduces to the expiration check on the exact envelope that was
written. -/
theorem getStorage_setStorage (cw cr : StoCfg) (enc : EncCfg)
    (hw : cw.encryption = some enc) (hr : cr.encryption = some enc)
    (htype : cw.type = cr.type) (hg : GoodEnc enc)
    (v : Str) (hv : ValidStr v) (noww nowr : Nat) (st : StoreState) (key : Str) :
    _getStorage cr false nowr (_setStorage cw false noww st key v) key =
      envCheck cr nowr (_setStorage cw false noww st key v) key
        (some ⟨v, if truthyExp cw.expiration then some noww else none⟩) := by
  have hset : _setStorage cw false noww st key v =
      writeBackend cw st key
        (encodeData enc
          (stringifyEnvelope ⟨v, if truthyExp cw.expiration then some noww else none⟩)) := by
    unfold _setStorage
    rw [hw]
    simp only [Bool.false_eq_true, if_false]
  rw [hset]
  unfold _getStorage
  rw [readBackend_writeBackend cw cr htype]
  simp only [Bool.false_eq_true, if_false]
  rw [if_neg (encodeData_ne_nil enc _), hr]
  simp only []
  rw [if_neg (goodEnc_not_undef enc hg),
    decodeStored_encodeData enc hg _ (by exact hv)]

/-- A freshly written envelope never fails the expiration test at its own
write time. -/
theorem envCheck_fresh (c : StoCfg) (now : Nat) (st : StoreState) (key : Str) (v : Str) :
    envCheck c now st key (some ⟨v, if truthyExp c.expiration then some now else none⟩) =
      (RVal.rstr v, st) := by
  unfold envCheck
  cases hexp : c.expiration with
  | none => rfl
  | some exp =>
    simp only []
    by_cases h0 : exp = 0
    · rw [if_neg]
      rintro ⟨h1, _⟩
      exact h1 h0
    · have ht : truthyExp (some exp) = true := by simp [truthyExp, h0]
      rw [ht]
      norm_num

/-! ## Translations, configuration merging, and the published UI state -/

/-- A translation table; each label may be absent. -/
structure TransTable where
  system : Option Str
  light : Option Str
  dark : Option Str
deriving DecidableEq

def emptyTable : TransTable := ⟨none, none, none⟩

/-- A value of the `i18n.translations[lang]` mapping: an inline table or a
URL string to fetch. -/
inductive TransVal where
  | tbl : TransTable -> TransVal
  | url : Str -> TransVal
deriving DecidableEq

/-- What `this._config.i18n.translations` holds at runtime: initially a
mapping from locale tags, but `setLanguage` and `run` overwrite it with a
single table, and a non-2xx translations fetch can leave a bare URL string
in it. -/
inductive TransDyn where
  | map : List (Str × TransVal) -> TransDyn
  | tbl : TransTable -> TransDyn
  | str : Str -> TransDyn
deriving DecidableEq

/-- Property access `translations.system` (same for `.light` / `.dark`):
defined on a table; `undefined` on a URL string.  On a locale mapping it is
also modeled as `undefined`, which is faithful as long as no locale tag is
literally named `system`/`light`/`dark`. -/
def dynSystem : TransDyn -> Option Str
  | TransDyn.tbl t => t.system
  | _ => none

def dynLight : TransDyn -> Option Str
  | TransDyn.tbl t => t.light
  | _ => none

def dynDark : TransDyn -> Option Str
  | TransDyn.tbl t => t.dark
  | _ => none

/-- `x || 'Default'`: JS falls back both on `undefined` and on the empty
string. -/
def jsOr (v : Option Str) (d : Str) : Str :=
  match v with
  | none => d
  | some s => if s = [] then d else s

/-- `config.i18n`.  `system`/`light`/`dark` are the direct label fields
`_createElement` reads (`this._config.i18n.system || 'System'`); no
built-in default sets them. -/
structure I18nCfg where
  default : Option Str
  autoDetect : Option Str
  translations : TransDyn
  system : Option Str
  light : Option Str
  dark : Option Str
deriving DecidableEq

structure ClassesCfg where
  container : Option Str
  button : Option Str
  menu : Option Str
deriving DecidableEq

structure Config where
  root : Option Str
  prepend : Bool
  i18n : I18nCfg
  classes : ClassesCfg
  storage : StoCfg
deriving DecidableEq

/-- The built-in `_config` defaults (source lines 35-62).  Note that the
default encryption method is `'xor'` with no `key` field at all. -/
def defaultConfig : Config :=
  { root := some (S "body")
    prepend := false
    i18n :=
      { default := some (S "en")
        autoDetect := none
        translations := TransDyn.map
          [(S "en", TransVal.tbl ⟨some (S "System"), some (S "Light"), some (S "Dark")⟩)]
        system := none
        light := none
        dark := none }
    classes := ⟨some [], some [], some []⟩
    storage :=
      { type := some (S "local")
        expiration := none
        encryption := some ⟨true, S "xor", none⟩ } }

/-- The options object `run` receives: any top-level key may be absent. -/
structure Options where
  root : Option (Option Str)
  prepend : Option Bool
  i18n : Option I18nCfg
  classes : Option ClassesCfg
  storage : Option StoCfg

/-- `this._config = { ...this._config, ...options }`: a shallow, top-level
merge.  A key absent from `options` keeps the default; a key present in
`options` replaces the default subtree wholesale. -/
def mergeConfig (d : Config) (o : Options) : Config :=
  { root := o.root.getD d.root
    prepend := o.prepend.getD d.prepend
    i18n := o.i18n.getD d.i18n
    classes := o.classes.getD d.classes
    storage := o.storage.getD d.storage }

/-- `{}`: the empty options object. -/
def emptyOptions : Options := ⟨none, none, none, none, none⟩

/-- The published UI state: the document's `data-bs-theme` attribute, the
single mounted dropdown (button icon and label, the three item labels), and
the set of items carrying the `active` class (by their `data-value`). -/
structure Dom where
  created : Bool
  active : List Str
  htmlTheme : Option Str
  btnIcon : Str
  btnLabel : Str
  itemSystem : Str
  itemLight : Str
  itemDark : Str
deriving DecidableEq

/-- A fresh page: no control mounted, no theme attribute. -/
def emptyDom : Dom := ⟨false, [], none, [], [], [], [], []⟩

/-- `_createElement` (lines 350-413): mounting a second time onto a root
that already contains the element is a no-op; otherwise the dropdown is
built with the half icon and the labels `i18n.system || 'System'` etc.
(The version-comment node, the CSS class hooks and the `prepend` position
are cosmetic and not tracked.) -/
def _createElement (cfg : Config) (d : Dom) : Dom :=
  if d.created then d
  else
    { created := true
      active := []
      htmlTheme := d.htmlTheme
      btnIcon := S "bi bi-circle-half"
      btnLabel := jsOr cfg.i18n.system (S "System")
      itemSystem := jsOr cfg.i18n.system (S "System")
      itemLight := jsOr cfg.i18n.light (S "Light")
      itemDark := jsOr cfg.i18n.dark (S "Dark") }

def storageKey : Str := S "useTheme"

/-- `_applyThemeSettings(key, theme, icon, text)` (lines 425-443): set the
document attribute, rewrite the button, persist `key`.  When the toggler
element is missing the lookup throws -- but only after the attribute was
already set, so the button and the store stay untouched. -/
def _applyThemeSettings (cfg : Config) (broken : Bool) (now : Nat)
    (st : StoreState) (d : Dom) (key theme icon text : Str) : Dom × StoreState :=
  let d1 := { d with htmlTheme := some theme }
  if d.created then
    ({ d1 with btnIcon := icon, btnLabel := text },
      _setStorage cfg.storage broken now st storageKey key)
  else (d1, st)

/-- `_updateTheme(theme)` (lines 452-500): bail out when no toggler is
mounted; remove the `active` class from every item; when no item matches
the token, log and return -- the classes stay cleared; otherwise mark the
matching item active and apply the resolved theme.  `pd` is the OS signal
`matchMedia('(prefers-color-scheme: dark)').matches`, read only when the
token is `system`. -/
def _updateTheme (cfg : Config) (broken : Bool) (pd : Bool) (now : Nat)
    (st : StoreState) (d : Dom) (theme : Str) : Dom × StoreState :=
  if d.created then
    let d1 := { d with active := [] }
    if theme = S "system" then
      let d2 := { d1 with active := [S "system"] }
      if pd then
        _applyThemeSettings cfg broken now st d2 (S "system") (S "dark")
          (S "bi bi-circle-half") (jsOr (dynSystem cfg.i18n.translations) (S "System"))
      else
        _applyThemeSettings cfg broken now st d2 (S "system") (S "light")
          (S "bi bi-circle-half") (jsOr (dynSystem cfg.i18n.translations) (S "System"))
    else if theme = S "light" then
      let d2 := { d1 with active := [S "light"] }
      _applyThemeSettings cfg broken now st d2 (S "light") (S "light")
        (S "bi bi-brightness-high-fill") (jsOr (dynLight cfg.i18n.translations) (S "Light"))
    else if theme = S "dark" then
      let d2 := { d1 with active := [S "dark"] }
      _applyThemeSettings cfg broken now st d2 (S "dark") (S "dark")
        (S "bi bi-moon-fill") (jsOr (dynDark cfg.i18n.translations) (S "Dark"))
    else (d1, st)
  else (d, st)

/-- The result of `fetch(url)` for a translations URL: a 2xx JSON table, a
non-2xx response, or a network/parse error. -/
inductive FetchRes where
  | ok : TransTable -> FetchRes
  | bad : FetchRes
  | err : FetchRes

def lookupTV : List (Str × TransVal) -> Str -> Option TransVal
  | [], _ => none
  | (k, v) :: t, key => if k = key then some v else lookupTV t key

/-- `translationsConfig[this._config.i18n.default] || {}` -- the fallback
`_loadTranslations` uses both when the language has no entry and in its
catch block.  A URL-string entry is truthy and is returned as-is. -/
def defaultEntry (i : I18nCfg) (m : List (Str × TransVal)) : TransDyn :=
  match i.default with
  | none => TransDyn.tbl emptyTable
  | some dl =>
    match lookupTV m dl with
    | some (TransVal.tbl t) => TransDyn.tbl t
    | some (TransVal.url u) => TransDyn.str u
    | none => TransDyn.tbl emptyTable

/-- `_loadTranslations(lang)` (lines 509-536).  A URL entry is fetched: a
2xx JSON body is returned; a non-2xx response falls through to
`if (translationsConfig[lang])`, which is truthy (it is the URL string), so
the URL string itself is returned as the translations object; a throwing
fetch lands in the catch block, which returns the default entry.  When the
mapping was already replaced by a table or a string, both lookups find
nothing and the empty table results. -/
def _loadTranslations (i : I18nCfg) (fetch : Str -> FetchRes) (lang : Option Str) :
    TransDyn :=
  match i.translations with
  | TransDyn.map m =>
    match lang with
    | none => defaultEntry i m
    | some l =>
      match lookupTV m l with
      | some (TransVal.url u) =>
        (match fetch u with
         | FetchRes.ok t => TransDyn.tbl t
         | FetchRes.bad => TransDyn.str u
         | FetchRes.err => defaultEntry i m)
      | some (TransVal.tbl t) => TransDyn.tbl t
      | none => defaultEntry i m
  | _ => TransDyn.tbl emptyTable

/-- `_detectLanguage()` (lines 544-565): `browser` takes the primary subtag
of `navigator.language` (the catch returns the default when it is
unavailable); `document` takes `document.documentElement.lang` (empty when
unset); anything else returns the configured default. -/
def _detectLanguage (i : I18nCfg) (browserLang : Option Str) (docLang : Str) :
    Option Str :=
  if i.autoDetect = some (S "browser") then
    match browserLang with
    | none => i.default
    | some bl =>
      if bl.takeWhile (fun c => c != 45) = [] then i.default
      else some (bl.takeWhile (fun c => c != 45))
  else if i.autoDetect = some (S "document") then
    if docLang = [] then i.default else some docLang
  else i.default

/-- `setLanguage(lang)` (lines 573-605): load the table, replace
`i18n.translations` wholesale, rewrite the three item labels and the button
label (keeping the current icon).  Without a mounted control only the
config changes. -/
def setLanguage (cfg : Config) (fetch : Str -> FetchRes) (d : Dom) (lang : Option Str) :
    Config × Dom :=
  let tr := _loadTranslations cfg.i18n fetch lang
  let cfg2 := { cfg with i18n := { cfg.i18n with translations := tr } }
  if d.created then
    (cfg2,
      { d with
        itemSystem := jsOr (dynSystem tr) (S "System")
        itemLight := jsOr (dynLight tr) (S "Light")
        itemDark := jsOr (dynDark tr) (S "Dark")
        btnLabel := jsOr (dynSystem tr) (S "System") })
  else (cfg2, d)

/-- The environment `run` executes in.  `rootFound` records whether the
configured root selector matches; when it does not, the source falls back
to `document.body`, which changes only the attachment point, not any
tracked state. -/
structure Env where
  storageBroken : Bool
  prefersDark : Bool
  now : Nat
  fetch : Str -> FetchRes
  browserLang : Option Str
  docLang : Str
  rootFound : Bool

/-- `run(options)` (lines 613-662): merge the options shallowly over the
defaults, mount the control, load translations for the detected language
and put them into the config, read the stored token -- defaulting to
`'system'` and writing that default back -- and publish the theme.  A read
that yields `undefined` (see `_getStorage`) slips past the
`theme === null` check and reaches `_updateTheme` stringified as
`'undefined'`, where no menu item matches. -/
def run (o : Options) (env : Env) (st : StoreState) (d : Dom) :
    Config × Dom × StoreState :=
  let cfg := mergeConfig defaultConfig o
  let d1 := _createElement cfg d
  let lang := _detectLanguage cfg.i18n env.browserLang env.docLang
  let tr := _loadTranslations cfg.i18n env.fetch lang
  let cfg2 := { cfg with i18n := { cfg.i18n with translations := tr } }
  match _getStorage cfg2.storage env.storageBroken env.now st storageKey with
  | (RVal.rnull, st1) =>
    let st2 := _setStorage cfg2.storage env.storageBroken env.now st1 storageKey
      (S "system")
    let r := _updateTheme cfg2 env.storageBroken env.prefersDark env.now st2 d1
      (S "system")
    (cfg2, r.1, r.2)
  | (RVal.rstr s, st1) =>
    let r := _updateTheme cfg2 env.storageBroken env.prefersDark env.now st1 d1 s
    (cfg2, r.1, r.2)
  | (RVal.rundef, st1) =>
    let r := _updateTheme cfg2 env.storageBroken env.prefersDark env.now st1 d1
      (S "undefined")
    (cfg2, r.1, r.2)

/-! ## Claim C3: codec round-trips -/

/-- Modelled from the spec: codec method `none` is the identity transform.
The source has no codec named `none`; disabled encryption stores the
serialized payload unchanged, which is the identity at the codec level. -/
def _encodeNone (data : Str) : Str := data

/-- Modelled from the spec: inverse of `_encodeNone`. -/
def _decodeNone (data : Str) : Str := data

/-- C3: for every encryption method m in none, base64, hex, xor(key) (with
a fixed non-empty key for xor) and every string payload p,
decode_m(encode_m(p)) equals p. -/
theorem C3_codec_roundtrip (p key : Str) (hp : ValidStr p) (hk : ValidStr key)
    (hne : key ≠ []) :
    _decodeNone (_encodeNone p) = p ∧
    _decodeBase64 (_encodeBase64 p) = p ∧
    _decodeHex (_encodeHex p) = some p ∧
    _xorDecrypt (_xorEncrypt p key) key = some p :=
  ⟨rfl, base64_roundtrip p, hex_roundtrip p hp, xor_roundtrip p key hp hk⟩

/-- Witness for C3 at payload `'Tmavý'` and key `'k'`. -/
theorem C3_codec_roundtrip_witness :
    ValidStr (S "Tmavý") ∧ ValidStr (S "k") ∧ S "k" ≠ [] ∧
    (_decodeNone (_encodeNone (S "Tmavý")) = S "Tmavý" ∧
      _decodeBase64 (_encodeBase64 (S "Tmavý")) = S "Tmavý" ∧
      _decodeHex (_encodeHex (S "Tmavý")) = some (S "Tmavý") ∧
      _xorDecrypt (_xorEncrypt (S "Tmavý") (S "k")) (S "k") = some (S "Tmavý")) :=
  ⟨by decide, by decide, by decide,
    C3_codec_roundtrip (S "Tmavý") (S "k") (by decide) (by decide) (by decide)⟩

/-! ## Claim C1: write-then-read round-trip -/

/-- Storage configuration with encryption enabled and the spec's method
name `'none'`, which the source's branch chain does not recognize. -/
def cfgNoneMethod : StoCfg :=
  { type := some (S "local"), expiration := none,
    encryption := some ⟨true, S "none", none⟩ }

/-- C1 counterexample: with encryption enabled and method `'none'`, the
value stored is the coerced string `'[object Object]'` and an immediate
read returns `undefined`, not the written `'dark'` -- the round-trip the
claim asserts for method `none` fails. -/
theorem C1_counterexample :
    (_getStorage cfgNoneMethod false 0
        (_setStorage cfgNoneMethod false 0 ⟨[], []⟩ storageKey (S "dark"))
        storageKey).1 = RVal.rundef ∧
      RVal.rundef ≠ RVal.rstr (S "dark") := by
  constructor
  · decide
  · decide

/-- C1 (amended): for every storage backend selection and encryption
disabled or method in hex / xor / base64 (any well-formed key, including a
missing one), a read of key k immediately after write(k, v) -- at the same
timestamp, so no expiration window has elapsed -- returns exactly v and
leaves the backend untouched.  With encryption enabled and the unrecognized
method `'none'` the read instead yields `undefined` (see the
counterexample). -/
theorem C1_roundtrip (c : StoCfg) (enc : EncCfg) (hc : c.encryption = some enc)
    (hg : GoodEnc enc) (key v : Str) (hv : ValidStr v) (now : Nat) (st : StoreState) :
    _getStorage c false now (_setStorage c false now st key v) key =
      (RVal.rstr v, _setStorage c false now st key v) := by
  rw [getStorage_setStorage c c enc hc hc rfl hg v hv now now st key]
  exact envCheck_fresh c now _ key v

/-- Witness for C1 on the session backend with hex encryption and a
configured expiration. -/
def cfgHexSession : StoCfg :=
  { type := some (S "session"), expiration := some 1000,
    encryption := some ⟨true, S "hex", none⟩ }

theorem C1_roundtrip_witness :
    cfgHexSession.encryption = some ⟨true, S "hex", none⟩ ∧
    GoodEnc ⟨true, S "hex", none⟩ ∧ ValidStr (S "dark") ∧
    _getStorage cfgHexSession false 5
        (_setStorage cfgHexSession false 5 ⟨[], []⟩ storageKey (S "dark")) storageKey =
      (RVal.rstr (S "dark"),
        _setStorage cfgHexSession false 5 ⟨[], []⟩ storageKey (S "dark")) :=
  ⟨rfl, by decide, by decide,
    C1_roundtrip cfgHexSession ⟨true, S "hex", none⟩ rfl (by decide) storageKey
      (S "dark") (by decide) 5 ⟨[], []⟩⟩

/-! ## Claim C4: expiration boundary -/

/-- Evaluating the expiration check on a parsed envelope carrying a numeric
timestamp. -/
theorem envCheck_at (c : StoCfg) (T : Nat) (he : c.expiration = some T) (hT : 0 < T)
    (now ts : Nat) (st : StoreState) (key v : Str) :
    envCheck c now st key (some ⟨v, some ts⟩) =
      if (now : Int) - ts > T then (RVal.rnull, removeBackend c st key)
      else (RVal.rstr v, st) := by
  unfold envCheck
  simp only []
  rw [he]
  simp only []
  by_cases h : (now : Int) - ts > T
  · rw [if_pos ⟨by omega, h⟩, if_pos h]
  · rw [if_neg (by rintro ⟨_, hx⟩; exact h hx), if_neg h]

/-- Evaluating the expiration check on a parsed envelope whose timestamp is
`null` (the JS subtraction coerces it to `0`). -/
theorem envCheck_null_ts (c : StoCfg) (T : Nat) (he : c.expiration = some T)
    (hT : 0 < T) (now : Nat) (st : StoreState) (key v : Str) :
    envCheck c now st key (some ⟨v, none⟩) =
      if (now : Int) - 0 > T then (RVal.rnull, removeBackend c st key)
      else (RVal.rstr v, st) := by
  unfold envCheck
  simp only []
  rw [he]
  simp only []
  by_cases h : (now : Int) - 0 > T
  · rw [if_pos ⟨by omega, h⟩, if_pos h]
  · rw [if_neg (by rintro ⟨_, hx⟩; exact h hx), if_neg h]

/-- A write under a configured nonzero expiration stamps the envelope with
the write time. -/
theorem fresh_ts (c : StoCfg) (T : Nat) (he : c.expiration = some T) (hT : 0 < T)
    (W : Nat) :
    (if truthyExp c.expiration = true then some W else (none : Option Nat)) = some W := by
  rw [he]
  unfold truthyExp
  rw [if_pos (by simp only [bne_iff_ne, ne_eq]; omega)]

/-- C4: with expirationMs = T configured and a value written at time W, a
read at now = W + T + 1 returns None and removes the key from the backend,
while a read at now = W + T - 1 returns the stored value and retains the
key. -/
theorem C4_expiration (c : StoCfg) (enc : EncCfg) (hc : c.encryption = some enc)
    (hg : GoodEnc enc) (T : Nat) (hT : 0 < T) (he : c.expiration = some T)
    (key v : Str) (hv : ValidStr v) (W : Nat) (st : StoreState) :
    (_getStorage c false (W + T + 1) (_setStorage c false W st key v) key =
        (RVal.rnull, removeBackend c (_setStorage c false W st key v) key) ∧
      readBackend c (removeBackend c (_setStorage c false W st key v) key) key = none) ∧
    _getStorage c false (W + T - 1) (_setStorage c false W st key v) key =
      (RVal.rstr v, _setStorage c false W st key v) := by
  have h1 := getStorage_setStorage c c enc hc hc rfl hg v hv W (W + T + 1) st key
  have h2 := getStorage_setStorage c c enc hc hc rfl hg v hv W (W + T - 1) st key
  rw [fresh_ts c T he hT W] at h1 h2
  refine ⟨⟨?_, readBackend_removeBackend c c rfl _ key⟩, ?_⟩
  · rw [h1, envCheck_at c T he hT _ W _ key v, if_pos (by omega)]
  · rw [h2, envCheck_at c T he hT _ W _ key v, if_neg (by omega)]

/-- Local-backend configuration with hex encryption and expiration 10. -/
def cfgHexExp10 : StoCfg :=
  { type := some (S "local"), expiration := some 10,
    encryption := some ⟨true, S "hex", none⟩ }

/-- Witness for C4: hex encryption, T = 10, W = 100. -/
theorem C4_expiration_witness :
    cfgHexExp10.encryption = some ⟨true, S "hex", none⟩ ∧
    GoodEnc ⟨true, S "hex", none⟩ ∧ (0 : Nat) < 10 ∧ ValidStr (S "dark") ∧
    ((_getStorage cfgHexExp10 false 111
          (_setStorage cfgHexExp10 false 100 ⟨[], []⟩ storageKey (S "dark")) storageKey =
        (RVal.rnull,
          removeBackend cfgHexExp10
            (_setStorage cfgHexExp10 false 100 ⟨[], []⟩ storageKey (S "dark")) storageKey) ∧
      readBackend cfgHexExp10
          (removeBackend cfgHexExp10
            (_setStorage cfgHexExp10 false 100 ⟨[], []⟩ storageKey (S "dark")) storageKey)
          storageKey = none) ∧
    _getStorage cfgHexExp10 false 109
        (_setStorage cfgHexExp10 false 100 ⟨[], []⟩ storageKey (S "dark")) storageKey =
      (RVal.rstr (S "dark"),
        _setStorage cfgHexExp10 false 100 ⟨[], []⟩ storageKey (S "dark"))) :=
  ⟨rfl, by decide, by decide, by decide,
    C4_expiration cfgHexExp10 ⟨true, S "hex", none⟩ rfl (by decide) 10 (by decide) rfl
      storageKey (S "dark") (by decide) 100 ⟨[], []⟩⟩

/-! ## Claim C10: stale null-timestamp envelopes -/

/-- C10: an envelope written while no expiration was configured carries a
null timestamp; a later read with expirationMs = T > 0 computes
`now - null > T`, i.e. `now > T`, so (at any realistic clock value, where
`now` exceeds the expiration span) the read deletes the key and returns
None instead of the stored value. -/
theorem C10_null_timestamp_invalidated (c : StoCfg) (enc : EncCfg)
    (hc : c.encryption = some enc) (hg : GoodEnc enc) (T : Nat) (hT : 0 < T)
    (he : c.expiration = some T) (key v : Str) (hv : ValidStr v) (W now : Nat)
    (hnow : T < now) (st : StoreState) :
    _getStorage c false now
        (_setStorage { c with expiration := none } false W st key v) key =
      (RVal.rnull,
        removeBackend c
          (_setStorage { c with expiration := none } false W st key v) key) ∧
    readBackend c
        (removeBackend c
          (_setStorage { c with expiration := none } false W st key v) key) key = none := by
  have h1 := getStorage_setStorage { c with expiration := none } c enc hc hc rfl hg
    v hv W now st key
  have hts : (if truthyExp ({ c with expiration := none } : StoCfg).expiration = true
      then some W else (none : Option Nat)) = none := rfl
  rw [hts] at h1
  refine ⟨?_, readBackend_removeBackend c c rfl _ key⟩
  rw [h1, envCheck_null_ts c T he hT now _ key v, if_pos (by omega)]

/-- Witness for C10: write with no expiration at W = 3, read with T = 10 at
now = 11. -/
theorem C10_null_timestamp_witness :
    cfgHexExp10.encryption = some ⟨true, S "hex", none⟩ ∧
    GoodEnc ⟨true, S "hex", none⟩ ∧ (0 : Nat) < 10 ∧ ValidStr (S "dark") ∧ (10 : Nat) < 11 ∧
    (_getStorage cfgHexExp10 false 11
        (_setStorage { cfgHexExp10 with expiration := none } false 3 ⟨[], []⟩ storageKey
          (S "dark")) storageKey =
      (RVal.rnull,
        removeBackend cfgHexExp10
          (_setStorage { cfgHexExp10 with expiration := none } false 3 ⟨[], []⟩ storageKey
            (S "dark")) storageKey) ∧
    readBackend cfgHexExp10
        (removeBackend cfgHexExp10
          (_setStorage { cfgHexExp10 with expiration := none } false 3 ⟨[], []⟩ storageKey
            (S "dark")) storageKey) storageKey = none) :=
  ⟨rfl, by decide, by decide, by decide, by decide,
    C10_null_timestamp_invalidated cfgHexExp10 ⟨true, S "hex", none⟩ rfl (by decide) 10
      (by decide) rfl storageKey (S "dark") (by decide) 3 11 (by decide) ⟨[], []⟩⟩

/-! ## Claim C2: invalid token passed to selectTheme -/

/-- A mounted control showing the dark theme, with the `dark` option marked
active. -/
def domDark : Dom :=
  { created := true, active := [S "dark"], htmlTheme := some (S "dark")
    btnIcon := S "bi bi-moon-fill", btnLabel := S "Dark"
    itemSystem := S "System", itemLight := S "Light", itemDark := S "Dark" }

/-- C2 counterexample: selecting the unknown token `'blue'` neither raises
an `UnknownThemeError` (the call returns normally) nor leaves the published
selection untouched -- the `active` class is stripped from the previously
selected `dark` option and never restored. -/
theorem C2_counterexample :
    _updateTheme defaultConfig false false 0 ⟨[], []⟩ domDark (S "blue") =
      ({ domDark with active := [] }, ⟨[], []⟩) ∧
    domDark.active = [S "dark"] ∧ ({ domDark with active := [] } : Dom).active = [] := by
  refine ⟨by decide, by decide, by decide⟩

/-- Core fact shared below: on a mounted control, an unknown token makes
`_updateTheme` return normally with only the `active` classes cleared. -/
theorem updateTheme_unknown (cfg : Config) (broken pd : Bool) (now : Nat)
    (st : StoreState) (d : Dom) (hc : d.created = true) (t : Str)
    (h1 : t ≠ S "system") (h2 : t ≠ S "light") (h3 : t ≠ S "dark") :
    _updateTheme cfg broken pd now st d t = ({ d with active := [] }, st) := by
  unfold _updateTheme
  rw [hc]
  simp only [if_true]
  rw [if_neg h1, if_neg h2, if_neg h3]

/-- C2 (amended): an unknown token passed to theme selection is rejected
without any error being raised (the source only logs): the document's
theme attribute, the stored token and the backend state, the button, and
the item labels are unchanged -- but the `active` marking is cleared from
every option and not restored. -/
theorem C2_invalid_token (cfg : Config) (broken pd : Bool) (now : Nat)
    (st : StoreState) (d : Dom) (hc : d.created = true) (t : Str)
    (h1 : t ≠ S "system") (h2 : t ≠ S "light") (h3 : t ≠ S "dark") :
    _updateTheme cfg broken pd now st d t = ({ d with active := [] }, st) :=
  updateTheme_unknown cfg broken pd now st d hc t h1 h2 h3

/-- Witness for C2 at the token `'blue'` on a concrete mounted control. -/
theorem C2_invalid_token_witness :
    domDark.created = true ∧ S "blue" ≠ S "system" ∧ S "blue" ≠ S "light" ∧
    S "blue" ≠ S "dark" ∧
    _updateTheme defaultConfig true true 7 ⟨[], []⟩ domDark (S "blue") =
      ({ domDark with active := [] }, ⟨[], []⟩) :=
  ⟨rfl, by decide, by decide, by decide,
    C2_invalid_token defaultConfig true true 7 ⟨[], []⟩ domDark rfl (S "blue")
      (by decide) (by decide) (by decide)⟩

/-! ## Claim C5: theme resolution -/

/-- A mounted control showing the light theme, with `light` marked
active. -/
def domLight : Dom :=
  { created := true, active := [S "light"], htmlTheme := some (S "light")
    btnIcon := S "bi bi-brightness-high-fill", btnLabel := S "Light"
    itemSystem := S "System", itemLight := S "Light", itemDark := S "Dark" }

/-- C5 counterexample: resolving the unknown token `'purple'` does not
raise an `UnknownThemeError` -- `_updateTheme` returns normally (the source
merely logs), leaving the document attribute as it was. -/
theorem C5_counterexample :
    _updateTheme defaultConfig false true 3 ⟨[], []⟩ domLight (S "purple") =
      ({ domLight with active := [] }, ⟨[], []⟩) ∧
    ({ domLight with active := [] } : Dom).htmlTheme = domLight.htmlTheme := by
  refine ⟨by decide, by decide⟩

/-- C5 (amended): theme resolution maps the valid tokens as claimed, for
every OS signal and every translation table: `system` resolves to `dark`
when the OS prefers dark and to `light` otherwise, `light` to `light`, and
`dark` to `dark` (published in the document's theme attribute).  Any other
token is not resolved: no error is raised, the function returns normally
with the attribute and the store untouched (only the `active` marking is
cleared, see C2). -/
theorem C5_resolution (cfg : Config) (broken pd : Bool) (now : Nat)
    (st : StoreState) (d : Dom) (hc : d.created = true) :
    (_updateTheme cfg broken pd now st d (S "system")).1.htmlTheme =
        some (if pd then S "dark" else S "light") ∧
    (_updateTheme cfg broken pd now st d (S "light")).1.htmlTheme = some (S "light") ∧
    (_updateTheme cfg broken pd now st d (S "dark")).1.htmlTheme = some (S "dark") ∧
    (forall t, t ≠ S "system" -> t ≠ S "light" -> t ≠ S "dark" ->
      (_updateTheme cfg broken pd now st d t).1.htmlTheme = d.htmlTheme ∧
        (_updateTheme cfg broken pd now st d t).2 = st) := by
  refine ⟨?_, ?_, ?_, ?_⟩
  · unfold _updateTheme
    rw [hc]
    cases pd with
    | true => rfl
    | false => rfl
  · unfold _updateTheme
    rw [hc]
    rfl
  · unfold _updateTheme
    rw [hc]
    rfl
  · intro t h1 h2 h3
    rw [updateTheme_unknown cfg broken pd now st d hc t h1 h2 h3]
    exact ⟨rfl, rfl⟩

/-- Witness for C5 on a concrete mounted control with prefers-dark set. -/
theorem C5_resolution_witness :
    domLight.created = true ∧
    ((_updateTheme defaultConfig false true 3 ⟨[], []⟩ domLight (S "system")).1.htmlTheme =
        some (if true then S "dark" else S "light") ∧
      (_updateTheme defaultConfig false true 3 ⟨[], []⟩ domLight (S "light")).1.htmlTheme =
        some (S "light") ∧
      (_updateTheme defaultConfig false true 3 ⟨[], []⟩ domLight (S "dark")).1.htmlTheme =
        some (S "dark") ∧
      (forall t, t ≠ S "system" -> t ≠ S "light" -> t ≠ S "dark" ->
        (_updateTheme defaultConfig false true 3 ⟨[], []⟩ domLight t).1.htmlTheme =
            domLight.htmlTheme ∧
          (_updateTheme defaultConfig false true 3 ⟨[], []⟩ domLight t).2 = ⟨[], []⟩)) :=
  ⟨rfl, C5_resolution defaultConfig false true 3 ⟨[], []⟩ domLight rfl⟩

/-! ## Claim C9: xor with an empty or missing key -/

/-- C9 counterexample: the built-in default configuration is exactly
method `'xor'` with a missing key; a write is accepted without any
configuration error, silently encodes with the degenerate empty key (plain
hex of the payload), and an immediate read round-trips. -/
theorem C9_counterexample :
    defaultConfig.storage.encryption = some ⟨true, S "xor", none⟩ ∧
    _xorEncrypt (S "dark") [] = _encodeHex (S "dark") ∧
    _getStorage defaultConfig.storage false 0
        (_setStorage defaultConfig.storage false 0 ⟨[], []⟩ storageKey (S "dark"))
        storageKey =
      (RVal.rstr (S "dark"),
        _setStorage defaultConfig.storage false 0 ⟨[], []⟩ storageKey (S "dark")) := by
  refine ⟨rfl, by decide, by decide⟩

/-- C9 (amended): an empty (or missing) xor key is not rejected: the store
silently encrypts with the degenerate key -- `TextEncoder` turns the
missing key into the empty byte list, `i % 0` indexes `undefined`, and the
XOR coerces it to `0` -- so encryption degenerates to plain hex encoding of
the serialized envelope, and write-then-read still round-trips. -/
theorem C9_empty_key_accepted (data : Str) (c : StoCfg) (enc : EncCfg)
    (hc : c.encryption = some enc) (hm : enc.method = S "xor")
    (hk : enc.key = none ∨ enc.key = some []) (key v : Str) (hv : ValidStr v)
    (now : Nat) (st : StoreState) :
    _xorEncrypt data [] = _encodeHex data ∧
    _getStorage c false now (_setStorage c false now st key v) key =
      (RVal.rstr v, _setStorage c false now st key v) := by
  have hg : GoodEnc enc := by
    refine Or.inr (Or.inr (Or.inl ⟨hm, ?_⟩))
    rcases hk with hk | hk <;> rw [hk] <;> intro x hx <;> exact absurd hx (List.not_mem_nil x)
  refine ⟨xorEncrypt_nil_key data, ?_⟩
  rw [getStorage_setStorage c c enc hc hc rfl hg v hv now now st key]
  exact envCheck_fresh c now _ key v

/-- Witness for C9 with the built-in default storage configuration. -/
theorem C9_empty_key_witness :
    defaultConfig.storage.encryption = some ⟨true, S "xor", none⟩ ∧
    (⟨true, S "xor", none⟩ : EncCfg).method = S "xor" ∧
    ((⟨true, S "xor", none⟩ : EncCfg).key = none ∨
      (⟨true, S "xor", none⟩ : EncCfg).key = some []) ∧
    ValidStr (S "light") ∧
    (_xorEncrypt (S "light") [] = _encodeHex (S "light") ∧
      _getStorage defaultConfig.storage false 9
          (_setStorage defaultConfig.storage false 9 ⟨[], []⟩ storageKey (S "light"))
          storageKey =
        (RVal.rstr (S "light"),
          _setStorage defaultConfig.storage false 9 ⟨[], []⟩ storageKey (S "light"))) :=
  ⟨rfl, rfl, Or.inl rfl, by decide,
    C9_empty_key_accepted (S "light") defaultConfig.storage ⟨true, S "xor", none⟩ rfl rfl
      (Or.inl rfl) storageKey (S "light") (by decide) 9 ⟨[], []⟩⟩

/-! ## Claim C7: configuration merging -/

/-- Options supplying only the nested `storage.expiration`, as in
`run({storage: {expiration: T}})`. -/
def optsPartialStorage (T : Nat) : Options :=
  ⟨none, none, none, none, some ⟨none, some T, none⟩⟩

/-- C7 counterexample: merging `{storage: {expiration: 3600000}}` over the
defaults does not retain the built-in defaults of the sibling options --
the merged `storage.type` and `storage.encryption` are `undefined`, not
`'local'` and the default encryption object. -/
theorem C7_counterexample :
    (mergeConfig defaultConfig (optsPartialStorage 3600000)).storage.type = none ∧
    defaultConfig.storage.type = some (S "local") ∧
    (mergeConfig defaultConfig (optsPartialStorage 3600000)).storage.encryption = none ∧
    defaultConfig.storage.encryption = some ⟨true, S "xor", none⟩ := by
  refine ⟨by decide, by decide, by decide, by decide⟩

/-- C7 (amended): the merge is shallow and top-level only.  An absent
top-level option keeps its built-in default (empty options reproduce the
defaults exactly), but a supplied top-level object replaces the whole
default subtree: with options `{storage: {expiration: T}}` the merged
config has `storage.type` and `storage.encryption` undefined, so every
subsequent storage write is a silent no-op and every read yields null. -/
theorem C7_shallow_merge (T : Nat) (broken : Bool) (now : Nat) (st : StoreState)
    (k v : Str) :
    mergeConfig defaultConfig emptyOptions = defaultConfig ∧
    _setStorage (mergeConfig defaultConfig (optsPartialStorage T)).storage broken now
        st k v = st ∧
    (_getStorage (mergeConfig defaultConfig (optsPartialStorage T)).storage broken now
        st k).1 = RVal.rnull := by
  refine ⟨rfl, rfl, ?_⟩
  cases broken with
  | true => rfl
  | false =>
    unfold _getStorage
    simp only [Bool.false_eq_true, if_false]
    cases hlook :
        readBackend (mergeConfig defaultConfig (optsPartialStorage T)).storage st k with
    | none => rfl
    | some data =>
      simp only []
      by_cases hd : data = []
      · rw [if_pos hd]
      · rw [if_neg hd]
        rfl

/-- Witness for C7 at T = 3600000 on an arbitrary concrete state. -/
theorem C7_shallow_merge_witness :
    mergeConfig defaultConfig emptyOptions = defaultConfig ∧
    _setStorage (mergeConfig defaultConfig (optsPartialStorage 3600000)).storage false 4
        ⟨[(storageKey, S "x")], []⟩ storageKey (S "dark") = ⟨[(storageKey, S "x")], []⟩ ∧
    (_getStorage (mergeConfig defaultConfig (optsPartialStorage 3600000)).storage false 4
        ⟨[(storageKey, S "x")], []⟩ storageKey).1 = RVal.rnull :=
  C7_shallow_merge 3600000 false 4 ⟨[(storageKey, S "x")], []⟩ storageKey (S "dark")

/-! ## Claim C8: locale switch then theme selection -/

def csTable : TransTable := ⟨some (S "Systém"), some (S "Světlý"), some (S "Tmavý")⟩

/-- A configuration whose `i18n.translations` mapping is
`{cs: {system: 'Systém', light: 'Světlý', dark: 'Tmavý'}}`. -/
def cfgC8 : Config :=
  { defaultConfig with
    i18n := { defaultConfig.i18n with
      translations := TransDyn.map [(S "cs", TransVal.tbl csTable)] } }

/-- C8: with config translations `{cs: {...}}`, calling `setLocale('cs')`
and then selecting the `light` theme publishes the label `'Světlý'` on the
control's button, for every fetch behavior, OS signal, prior storage state
and mounted control. -/
theorem C8_locale_label (fetch : Str -> FetchRes) (broken pd : Bool) (now : Nat)
    (st : StoreState) (d : Dom) (hc : d.created = true) :
    (_updateTheme (setLanguage cfgC8 fetch d (some (S "cs"))).1 broken pd now st
        (setLanguage cfgC8 fetch d (some (S "cs"))).2 (S "light")).1.btnLabel =
      S "Světlý" := by
  have hsl : setLanguage cfgC8 fetch d (some (S "cs")) =
      ({ cfgC8 with i18n := { cfgC8.i18n with translations := TransDyn.tbl csTable } },
        { d with
          itemSystem := S "Systém"
          itemLight := S "Světlý"
          itemDark := S "Tmavý"
          btnLabel := S "Systém" }) := by
    unfold setLanguage
    rw [hc]
    rfl
  rw [hsl]
  unfold _updateTheme
  simp only []
  rw [hc]
  rfl

/-- Witness for C8 on a concrete mounted control and an erroring fetch. -/
theorem C8_locale_label_witness :
    domDark.created = true ∧
    (_updateTheme (setLanguage cfgC8 (fun _ => FetchRes.err) domDark (some (S "cs"))).1
        false false 6 ⟨[], []⟩
        (setLanguage cfgC8 (fun _ => FetchRes.err) domDark (some (S "cs"))).2
        (S "light")).1.btnLabel = S "Světlý" :=
  ⟨rfl, C8_locale_label (fun _ => FetchRes.err) false false 6 ⟨[], []⟩ domDark rfl⟩

/-! ## Claim C6: start never fails -/

/-- Options with an arbitrary translations mapping (exercising the
translation fallback chain) and everything else left to the defaults. -/
def optsC6 (m : List (Str × TransVal)) : Options :=
  ⟨none, none,
    some { default := some (S "en"), autoDetect := none, translations := TransDyn.map m,
           system := none, light := none, dark := none },
    none, none⟩

/-- `run` on a fresh page with empty storage, under the failure environment
`env`. -/
def startC6 (m : List (Str × TransVal)) (broken pd rootFound : Bool)
    (fetch : Str -> FetchRes) (bl : Option Str) (dl : Str) (now : Nat) :
    Config × Dom × StoreState :=
  run (optsC6 m) ⟨broken, pd, now, fetch, bl, dl, rootFound⟩ ⟨[], []⟩ emptyDom

/-- C6: for every combination of storage failure, network/translation
failure (any translations mapping, any fetch behavior) and missing root
element, initialization completes: the control is mounted, the published
theme is the system default resolved against the OS signal, the `system`
option is marked active, and -- when the backend works -- the stored token
reads back as `'system'`.  (In this embedding every catch block is a total
fallback, so nothing can escape `run` by construction; the theorem records
the resulting Ready state.) -/
theorem C6_start_safe (m : List (Str × TransVal)) (broken pd rootFound : Bool)
    (fetch : Str -> FetchRes) (bl : Option Str) (dl : Str) (now : Nat) :
    (startC6 m broken pd rootFound fetch bl dl now).2.1.created = true ∧
    (startC6 m broken pd rootFound fetch bl dl now).2.1.htmlTheme =
      some (if pd then S "dark" else S "light") ∧
    (startC6 m broken pd rootFound fetch bl dl now).2.1.active = [S "system"] ∧
    (broken = false ->
      (_getStorage (startC6 m broken pd rootFound fetch bl dl now).1.storage false now
          (startC6 m broken pd rootFound fetch bl dl now).2.2 storageKey).1 =
        RVal.rstr (S "system")) := by
  cases broken with
  | true =>
    refine ⟨?_, ?_, ?_, ?_⟩
    · cases pd <;> rfl
    · cases pd <;> rfl
    · cases pd <;> rfl
    · intro h
      exact absurd h (by decide)
  | false =>
    refine ⟨?_, ?_, ?_, ?_⟩
    · cases pd <;> rfl
    · cases pd <;> rfl
    · cases pd <;> rfl
    · intro _
      cases pd with
      | true =>
        have heq : (startC6 m false true rootFound fetch bl dl now).2.2 =
            _setStorage defaultConfig.storage false now
              (_setStorage defaultConfig.storage false now ⟨[], []⟩ storageKey
                (S "system")) storageKey (S "system") := rfl
        have hcfg : (startC6 m false true rootFound fetch bl dl now).1.storage =
            defaultConfig.storage := rfl
        rw [heq, hcfg,
          getStorage_setStorage defaultConfig.storage defaultConfig.storage
            ⟨true, S "xor", none⟩ rfl rfl rfl (by decide) (S "system") (by decide)
            now now _ storageKey,
          envCheck_fresh]
      | false =>
        have heq : (startC6 m false false rootFound fetch bl dl now).2.2 =
            _setStorage defaultConfig.storage false now
              (_setStorage defaultConfig.storage false now ⟨[], []⟩ storageKey
                (S "system")) storageKey (S "system") := rfl
        have hcfg : (startC6 m false false rootFound fetch bl dl now).1.storage =
            defaultConfig.storage := rfl
        rw [heq, hcfg,
          getStorage_setStorage defaultConfig.storage defaultConfig.storage
            ⟨true, S "xor", none⟩ rfl rfl rfl (by decide) (S "system") (by decide)
            now now _ storageKey,
          envCheck_fresh]

/-- Witness for C6: empty translations mapping, erroring fetch, broken
storage backend unavailable root. -/
theorem C6_start_safe_witness :
    (startC6 [] false true false (fun _ => FetchRes.err) none [] 2).2.1.created = true ∧
    (startC6 [] false true false (fun _ => FetchRes.err) none [] 2).2.1.htmlTheme =
      some (if true then S "dark" else S "light") ∧
    (startC6 [] false true false (fun _ => FetchRes.err) none [] 2).2.1.active =
      [S "system"] ∧
    (false = false ->
      (_getStorage (startC6 [] false true false (fun _ => FetchRes.err) none [] 2).1.storage
          false 2 (startC6 [] false true false (fun _ => FetchRes.err) none [] 2).2.2
          storageKey).1 = RVal.rstr (S "system")) :=
  C6_start_safe [] false true false (fun _ => FetchRes.err) none [] 2

end BTT
